import Mathlib

/-!
Verification of the ingestion reconciliation core of the WOS Alliance
Observatory (screenshot OCR ingestion service).

The Python source is shallowly embedded:

* `difflib.SequenceMatcher.ratio` / `difflib.get_close_matches` (used by
  `observatory/db/player_matching.py`) are embedded over `List Char` with
  exact rational arithmetic.  The embedding assumes strings shorter than
  200 characters (so difflib's autojunk heuristic never activates), which
  holds for every player name the system handles.
* timezone-aware UTC datetimes are embedded as `Int` microseconds since
  the Unix epoch; `datetime.replace(hour=0, minute=0, second=0,
  microsecond=0)` on a UTC datetime is flooring to a multiple of a day.
* the database session is embedded as an explicit `DB` state record; each
  `save_*_ocr` routine from `observatory/db/*.py` becomes a state-passing
  function returning the updated state together with the count dictionary
  it builds.  `session.commit()` failures caused by unique constraints
  (declared in `observatory/db/models.py`) are modelled with `Except`:
  an `.error` result leaves the caller's state unchanged (rollback).
-/

set_option maxRecDepth 4000

deriving instance DecidableEq for Except

namespace Observatory

/-! ## difflib embedding (`difflib.SequenceMatcher`, `get_close_matches`) -/

/-- Length of the longest common prefix of two character lists. -/
def commonPrefixLen : List Char → List Char → Nat
  | a :: as, b :: bs => if a = b then commonPrefixLen as bs + 1 else 0
  | _, _ => 0

/-- Python `SequenceMatcher.find_longest_match` on the whole strings (junk-free
case): the longest matching block `(i, j, k)` with `a.drop i` and `b.drop j`
agreeing on `k` characters; ties are broken by the smallest `i`, then the
smallest `j`, which is exactly difflib's documented tie-breaking. -/
def bestBlock (a b : List Char) : Nat × Nat × Nat :=
  (List.range a.length).foldl
    (fun acc i =>
      (List.range b.length).foldl
        (fun acc2 j =>
          let k := commonPrefixLen (a.drop i) (b.drop j)
          if k > acc2.2.2 then (i, j, k) else acc2)
        acc)
    (0, 0, 0)

/-- Total size of the matching blocks of `SequenceMatcher.get_matching_blocks`,
computed with explicit fuel (the recursion depth is bounded by `a.length`,
so the fuel used by `matchTotal` below never runs out). -/
def matchTotalFuel : Nat → List Char → List Char → Nat
  | 0, _, _ => 0
  | fuel + 1, a, b =>
    let ijk := bestBlock a b
    let i := ijk.1
    let j := ijk.2.1
    let k := ijk.2.2
    if k = 0 then 0
    else
      matchTotalFuel fuel (a.take i) (b.take j) + k +
        matchTotalFuel fuel (a.drop (i + k)) (b.drop (j + k))

/-- Total number of matched characters between two strings, as counted by
`difflib.SequenceMatcher.get_matching_blocks`. -/
def matchTotal (a b : List Char) : Nat := matchTotalFuel (a.length + 1) a b

/-- Python `SequenceMatcher.ratio()`: `2 * M / (len(a) + len(b))` as an exact
rational (`1` for two empty strings, matching difflib). -/
def seqRatio (a b : List Char) : ℚ :=
  if a.length + b.length = 0 then 1
  else mkRat (2 * matchTotal a b) (a.length + b.length)

/-- `SequenceMatcher.ratio()` on Lean strings. -/
def strRatio (a b : String) : ℚ := seqRatio a.data b.data

/-- Python string comparison (lexicographic by code point) on char lists. -/
def pyCharListLt : List Char → List Char → Bool
  | [], [] => false
  | [], _ :: _ => true
  | _ :: _, [] => false
  | c :: cs, d :: ds =>
    if c.val < d.val then true
    else if d.val < c.val then false
    else pyCharListLt cs ds

/-- Python string comparison on strings. -/
def pyStrLt (a b : String) : Bool := pyCharListLt a.data b.data

/-- Python `str.lower()` restricted to ASCII (all names in the claims are
ASCII, where `Char.toLower` agrees with CPython). -/
def strLower (s : String) : String := ⟨s.data.map Char.toLower⟩

/-- One step of `heapq.nlargest(1, result)` over `(score, string)` pairs:
keep the candidate with the greater score, ties broken towards the greater
string in Python string order.  The score of candidate `x` is
`SequenceMatcher` ratio with `seq1 = x` and `seq2 = word` (difflib calls
`s.set_seq2(word)` once and `s.set_seq1(x)` per candidate), i.e.
`strRatio x word` — the ratio is not symmetric in its arguments. -/
def pickBestStep (word : String) (best : Option String) (x : String) : Option String :=
  match best with
  | none => some x
  | some b =>
    if strRatio b word < strRatio x word ∨
        (strRatio x word = strRatio b word ∧ pyStrLt b x) then some x
    else some b

/-- Python `difflib.get_close_matches(word, possibilities, n=1, cutoff)`.
difflib filters by `real_quick_ratio`, `quick_ratio` and `ratio` against the
cutoff; the first two are upper bounds of `ratio`, so the filter keeps exactly
the candidates whose `ratio` clears the cutoff.  Each ratio is computed with
`seq1 = x` (the candidate) and `seq2 = word`, so the test is
`cutoff ≤ strRatio x word`; `pickBestStep` then selects the winner.  The
comparison is on the raw (case-preserved) strings. -/
def getCloseMatch1 (word : String) (possibilities : List String) (cutoff : ℚ) :
    Option String :=
  let qualified := possibilities.filter (fun x => decide (cutoff ≤ strRatio x word))
  qualified.foldl (pickBestStep word) none

/-! ## Roster model and player matching (`observatory/db/player_matching.py`) -/

/-- Row of the `players` table (`models.Player`), restricted to the columns
the reconciliation core reads. -/
structure Player where
  id : Nat
  allianceId : Nat
  name : String
  currentPower : Option Int := none
  currentFurnace : Option Int := none
  deriving Repr, DecidableEq

/-- `FUZZY_MATCH_THRESHOLD = 0.85` from `player_matching.py`. -/
def FUZZY_MATCH_THRESHOLD : ℚ := mkRat 85 100

/-- `fuzzy_match_player(session, alliance_id, player_name, threshold)`:
collect the alliance roster, run `difflib.get_close_matches` (case-sensitive)
with the threshold as cutoff, and return the matched player together with the
case-insensitive similarity of the winning name; `(None, 0.0)` when the
roster is empty or nothing clears the cutoff. -/
def fuzzyMatchPlayer (players : List Player) (allianceId : Nat)
    (playerName : String) (threshold : ℚ) : Option Player × ℚ :=
  let allPlayers := players.filter (fun p => p.allianceId == allianceId)
  if allPlayers.isEmpty then (none, 0)
  else
    match getCloseMatch1 playerName (allPlayers.map (·.name)) threshold with
    | none => (none, 0)
    | some best =>
      (allPlayers.find? (fun p => p.name == best),
       strRatio (strLower playerName) (strLower best))

/-- `find_player_with_fuzzy_fallback`: exact case-sensitive lookup of
`(alliance_id, player_name)` first; on a miss, `fuzzy_match_player` with the
default threshold. -/
def findPlayerWithFuzzyFallback (players : List Player) (allianceId : Nat)
    (playerName : String) : Option Player :=
  match players.find? (fun p => p.allianceId == allianceId && p.name == playerName) with
  | some p => some p
  | none => (fuzzyMatchPlayer players allianceId playerName FUZZY_MATCH_THRESHOLD).1

/-! ## Name cleaning -/

/-- Python `str.strip()`: drop whitespace from both ends. -/
def pyStripList (cs : List Char) : List Char :=
  ((cs.dropWhile Char.isWhitespace).reverse.dropWhile Char.isWhitespace).reverse

/-- Python `str.strip()` on strings. -/
def pyStrip (s : String) : String := ⟨pyStripList s.data⟩

/-- Character-list form of the tag stripping used by every `save_*_ocr`
routine:

    if player_name.startswith("[") and "]" in player_name:
        player_name = player_name.split("]", 1)[1].strip()
-/
def stripTagList (cs : List Char) : List Char :=
  match cs with
  | '[' :: rest =>
    if rest.contains ']' then
      pyStripList ((rest.dropWhile (fun c => c != ']')).drop 1)
    else cs
  | _ => cs

/-- Tag stripping of the `save_*_ocr` routines on strings. -/
def stripTag (s : String) : String := ⟨stripTagList s.data⟩

/-- Tag stripping as the specification words it: exactly one leading tag made
of an opening bracket `[` or `(`, one to four alphanumerics, a closing
bracket, and optional whitespace, removed from the start only.  This
definition follows the spec's words (not the source) and exists solely to be
compared against `stripTag`. -/
def specStripTag (s : String) : String :=
  match s.data with
  | c :: rest =>
    if c = '[' ∨ c = '(' then
      let tagChars := rest.takeWhile Char.isAlphanum
      if 1 ≤ tagChars.length ∧ tagChars.length ≤ 4 then
        match rest.drop tagChars.length with
        | b :: rest2 =>
          if b = ']' ∨ b = ')' then ⟨rest2.dropWhile Char.isWhitespace⟩ else s
        | [] => s
      else s
    else s
  | [] => s

/-! ## UTC datetimes as microseconds since the epoch -/

/-- Microseconds in one day. -/
def microsPerDay : Int := 86400000000

/-- Microseconds in one hour. -/
def microsPerHour : Int := 3600000000

/-- `datetime.replace(hour=0, minute=0, second=0, microsecond=0)` on a
timezone-aware UTC datetime: floor to the enclosing UTC midnight. -/
def floorToMidnightUTC (t : Int) : Int := t - t.emod microsPerDay

/-! ## Database state

One record per table that the reconciliation core touches, mirroring
`observatory/db/models.py`.  Autoincrement primary keys that the code reads
(`players.id`, event ids) are modelled with explicit `next…Id` counters;
rows the code only ever appends or queries by value keep no surrogate id. -/

/-- Row of `player_power_history` (unique on `(player_id, captured_at)`). -/
structure PowerHistoryRow where
  playerId : Nat
  power : Int
  capturedAt : Int
  deriving Repr, DecidableEq

/-- Row of `player_furnace_history` (unique on `(player_id, captured_at)`).
`furnace_level` is a non-nullable column, but `add_furnace_history` inserts
whatever `_parse_furnace_level` produced, so a pending row can carry `none`
(rejected at commit by the NOT NULL constraint). -/
structure FurnaceHistoryRow where
  playerId : Nat
  furnaceLevel : Option Int
  capturedAt : Int
  deriving Repr, DecidableEq

/-- Row of `bear_events`. -/
structure BearEvent where
  id : Nat
  allianceId : Nat
  trapId : Int
  startedAt : Int
  endedAt : Option Int := none
  rallyCount : Option Int := none
  totalDamage : Option Int := none
  deriving Repr, DecidableEq

/-- Row of `bear_scores`. -/
structure BearScore where
  bearEventId : Nat
  playerId : Nat
  score : Int
  rank : Option Int := none
  recordedAt : Int
  deriving Repr, DecidableEq

/-- Row of `foundry_events`. -/
structure FoundryEvent where
  id : Nat
  allianceId : Nat
  legionNumber : Int
  eventDate : Int
  totalTroopPower : Option Int := none
  maxParticipants : Option Int := none
  actualParticipants : Option Int := none
  totalScore : Option Int := none
  won : Option Bool := none
  deriving Repr, DecidableEq

/-- Row of `foundry_signups` (unique on `(foundry_event_id, player_id)`). -/
structure FoundrySignup where
  foundryEventId : Nat
  playerId : Nat
  foundryPower : Int
  voted : Bool
  recordedAt : Int
  deriving Repr, DecidableEq

/-- Row of `foundry_results` (unique on `(foundry_event_id, player_id)`). -/
structure FoundryResult where
  foundryEventId : Nat
  playerId : Nat
  score : Int
  rank : Option Int := none
  recordedAt : Int
  deriving Repr, DecidableEq

/-- Row of `ac_events`. -/
structure ACEvent where
  id : Nat
  allianceId : Nat
  weekStartDate : Int
  totalRegistered : Option Int := none
  totalPower : Option Int := none
  deriving Repr, DecidableEq

/-- Row of `ac_signups`. -/
structure ACSignup where
  acEventId : Nat
  playerId : Nat
  acPower : Int
  recordedAt : Int
  deriving Repr, DecidableEq

/-- Row of `contribution_snapshots`. -/
structure ContributionSnapshot where
  allianceId : Nat
  playerId : Nat
  weekStartDate : Int
  snapshotDate : Int
  contributionAmount : Int
  rank : Option Int := none
  recordedAt : Int
  deriving Repr, DecidableEq

/-- The database state threaded through the save routines. -/
structure DB where
  players : List Player := []
  powerHistory : List PowerHistoryRow := []
  furnaceHistory : List FurnaceHistoryRow := []
  bearEvents : List BearEvent := []
  bearScores : List BearScore := []
  foundryEvents : List FoundryEvent := []
  foundrySignups : List FoundrySignup := []
  foundryResults : List FoundryResult := []
  acEvents : List ACEvent := []
  acSignups : List ACSignup := []
  contributionSnapshots : List ContributionSnapshot := []
  nextPlayerId : Nat := 1
  nextBearEventId : Nat := 1
  nextFoundryEventId : Nat := 1
  nextACEventId : Nat := 1
  deriving Repr, DecidableEq

/-- Find the first element satisfying a predicate together with its position
(the row an ORM `scalar_one_or_none` / `.first()` query hands back, kept with
its position so that in-place ORM mutation can be modelled by `List.set`). -/
def findIdxVal (p : α → Bool) : List α → Option (Nat × α)
  | [] => none
  | x :: xs =>
    if p x then some (0, x)
    else (findIdxVal p xs).map (fun iv => (iv.1 + 1, iv.2))

/-- Keys of a list have no duplicates (used for unique-constraint checks). -/
def noDupBy (key : α → β) [DecidableEq β] : List α → Bool
  | [] => true
  | x :: xs => !(xs.map key).contains (key x) && noDupBy key xs

/-! ## `observatory/db/operations.py` (alliance members / history) -/

/-- Python `int(...)` on a trimmed character list: optional sign then at
least one decimal digit (PEP 515 underscore separators never occur in OCR
furnace strings and are not modelled). -/
def pyParseInt (cs : List Char) : Option Int :=
  let digitsVal := fun (ds : List Char) =>
    if ds.isEmpty || !ds.all Char.isDigit then (none : Option Int)
    else some (ds.foldl (fun n c => n * 10 + (c.toNat - 48)) 0 : Nat)
  match cs with
  | '+' :: rest => digitsVal rest
  | '-' :: rest => (digitsVal rest).map (fun v => -v)
  | _ => digitsVal cs

/-- `_parse_furnace_level`: strip, upper-case, drop a leading `FC`, parse as
an integer; `None` on failure. -/
def parseFurnaceLevel (furnaceStr : Option String) : Option Int :=
  match furnaceStr with
  | none => none
  | some s =>
    let t := (pyStripList s.data).map Char.toUpper
    let t := if t.take 2 = ['F', 'C'] then t.drop 2 else t
    pyParseInt t

/-- Input row for `save_alliance_members_ocr` (one entry of `players_data`;
absent dict keys are `none`).  The float arithmetic of the `power_millions`
branch is embedded exactly over `ℚ`, which agrees with CPython whenever the
JSON number is exactly representable. -/
structure MemberRow where
  name : Option String := none
  power : Option Int := none
  powerMillions : Option ℚ := none
  furnaceLevel : Option String := none
  deriving Repr, DecidableEq

/-- Python `int(x)` for a nonnegative rational (truncation toward zero). -/
def ratTruncToInt (q : ℚ) : Int :=
  if 0 ≤ q then q.floor else -((-q).floor)

/-- Counts dictionary returned by `save_alliance_members_ocr`:
`{"players": …, "power_records": …, "furnace_records": …}`. -/
structure AllianceMembersCounts where
  players : Nat
  powerRecords : Nat
  furnaceRecords : Nat
  deriving Repr, DecidableEq

/-- `upsert_player`: find by `(alliance_id, name)`; create (with the next
autoincrement id) or update `current_power` / `current_furnace` in place. -/
def upsertPlayer (db : DB) (allianceId : Nat) (name : String)
    (power : Option Int) (furnaceLevel : Option String) : DB × Player :=
  match findIdxVal (fun p => p.allianceId == allianceId && p.name == name) db.players with
  | none =>
    let p : Player :=
      { id := db.nextPlayerId, allianceId := allianceId, name := name,
        currentPower := power, currentFurnace := parseFurnaceLevel furnaceLevel }
    ({ db with players := db.players ++ [p], nextPlayerId := db.nextPlayerId + 1 }, p)
  | some iv =>
    let p := iv.2
    let p1 := if power.isSome then { p with currentPower := power } else p
    let p2 :=
      if furnaceLevel.isSome then { p1 with currentFurnace := parseFurnaceLevel furnaceLevel }
      else p1
    ({ db with players := db.players.set iv.1 p2 }, p2)

/-- Loop body of `save_alliance_members_ocr` for one `player_data` entry. -/
def allianceMemberStep (allianceId : Nat) (capturedAt : Int)
    (acc : DB × AllianceMembersCounts) (row : MemberRow) : DB × AllianceMembersCounts :=
  let db := acc.1
  let counts := acc.2
  match row.name with
  | none => acc
  | some name =>
    if name == "" || strLower name == "null" then acc
    else
      let power :=
        match row.power, row.powerMillions with
        | some p, _ => some p
        | none, some pm => some (ratTruncToInt (pm * 1000000))
        | none, none => none
      let dbp := upsertPlayer db allianceId name power row.furnaceLevel
      let db1 := dbp.1
      let player := dbp.2
      let counts := { counts with players := counts.players + 1 }
      let db2 :=
        match power with
        | some p =>
          { db1 with powerHistory := db1.powerHistory ++
              [{ playerId := player.id, power := p, capturedAt := capturedAt }] }
        | none => db1
      let counts :=
        match power with
        | some _ => { counts with powerRecords := counts.powerRecords + 1 }
        | none => counts
      let db3 :=
        match row.furnaceLevel with
        | some _ =>
          { db2 with furnaceHistory := db2.furnaceHistory ++
              [{ playerId := player.id,
                 furnaceLevel := parseFurnaceLevel row.furnaceLevel,
                 capturedAt := capturedAt }] }
        | none => db2
      let counts :=
        match row.furnaceLevel with
        | some _ => { counts with furnaceRecords := counts.furnaceRecords + 1 }
        | none => counts
      (db3, counts)

/-- `save_alliance_members_ocr`: upsert each player, append history rows, then
`session.commit()`.  The commit enforces the `uq_power_capture` and
`uq_furnace_capture` unique constraints: a violation raises `IntegrityError`
and rolls the transaction back (`.error`, caller state unchanged). -/
def saveAllianceMembersOcr (db : DB) (allianceId : Nat)
    (playersData : List MemberRow) (capturedAt : Int) :
    Except String (DB × AllianceMembersCounts) :=
  let out := playersData.foldl (allianceMemberStep allianceId capturedAt)
    (db, { players := 0, powerRecords := 0, furnaceRecords := 0 })
  if noDupBy (fun r : PowerHistoryRow => (r.playerId, r.capturedAt)) out.1.powerHistory &&
      noDupBy (fun r : FurnaceHistoryRow => (r.playerId, r.capturedAt)) out.1.furnaceHistory &&
      out.1.furnaceHistory.all (fun r => r.furnaceLevel.isSome) then
    .ok out
  else
    .error "IntegrityError"

/-! ## `observatory/db/bear_operations.py` -/

/-- `EVENT_GROUPING_WINDOW_HOURS = 24`. -/
def EVENT_GROUPING_WINDOW_HOURS : Int := 24

/-- Result row of the `ORDER BY started_at DESC … .first()` query: the
matching event with the greatest `started_at`, kept with its list position
(ties — which the database may order arbitrarily — resolve to the first row
in table order). -/
def latestMatch (p : BearEvent → Bool) : List BearEvent → Option (Nat × BearEvent)
  | [] => none
  | e :: es =>
    let rest := (latestMatch p es).map (fun iv => (iv.1 + 1, iv.2))
    if p e then
      match rest with
      | none => some (0, e)
      | some iv => if e.startedAt < iv.2.startedAt then some iv else some (0, e)
    else rest

/-- `find_or_create_bear_event`: match the most recent event of the same
`(alliance_id, trap_id)` whose `started_at` lies within ±24h of the observed
time; pull `started_at` backward if the observation is earlier and overwrite
any supplied stats; otherwise create a new event at the observed time. -/
def findOrCreateBearEvent (db : DB) (allianceId : Nat) (trapId : Int)
    (startedAt : Int) (endedAt : Option Int := none) (rallyCount : Option Int := none)
    (totalDamage : Option Int := none) : DB × BearEvent :=
  let lo := startedAt - EVENT_GROUPING_WINDOW_HOURS * microsPerHour
  let hi := startedAt + EVENT_GROUPING_WINDOW_HOURS * microsPerHour
  let matchWindow := fun (e : BearEvent) =>
    e.allianceId == allianceId && e.trapId == trapId &&
      decide (lo ≤ e.startedAt) && decide (e.startedAt ≤ hi)
  match latestMatch matchWindow db.bearEvents with
  | some iv =>
    let e := iv.2
    let e1 := if startedAt < e.startedAt then { e with startedAt := startedAt } else e
    let e2 := if endedAt.isSome then { e1 with endedAt := endedAt } else e1
    let e3 := if rallyCount.isSome then { e2 with rallyCount := rallyCount } else e2
    let e4 := if totalDamage.isSome then { e3 with totalDamage := totalDamage } else e3
    ({ db with bearEvents := db.bearEvents.set iv.1 e4 }, e4)
  | none =>
    let e : BearEvent :=
      { id := db.nextBearEventId, allianceId := allianceId, trapId := trapId,
        startedAt := startedAt, endedAt := endedAt, rallyCount := rallyCount,
        totalDamage := totalDamage }
    ({ db with bearEvents := db.bearEvents ++ [e], nextBearEventId := db.nextBearEventId + 1 }, e)

/-- Input row for `save_bear_event_ocr` (one entry of `players_data`). -/
structure BearRow where
  name : Option String := none
  damagePoints : Option Int := none
  rank : Option Int := none
  deriving Repr, DecidableEq

/-- Counts dictionary of `save_bear_event_ocr`. -/
structure BearCounts where
  eventId : Nat
  scoresAdded : Nat
  scoresUpdated : Nat
  scoresSkipped : Nat
  deriving Repr, DecidableEq

/-- Python truthiness of the OCR `rank` value (`rank and …`): `None` and `0`
are falsy. -/
def rankTruthy : Option Int → Bool
  | none => false
  | some v => v != 0

/-- Loop body of `save_bear_event_ocr` for one `player_data` entry:
strip the tag, resolve the player by exact lookup only (this routine has no
fuzzy fallback), then insert / improve / skip the score. -/
def bearScoreStep (allianceId : Nat) (eventId : Nat) (recordedAt : Int)
    (acc : DB × BearCounts) (row : BearRow) : DB × BearCounts :=
  let db := acc.1
  let counts := acc.2
  match row.name with
  | none => acc
  | some name =>
    if name == "" then acc
    else
      let playerName := stripTag name
      match db.players.find? (fun p => p.allianceId == allianceId && p.name == playerName) with
      | none => acc
      | some player =>
        let damagePoints := row.damagePoints.getD 0
        let rank := row.rank
        match findIdxVal
            (fun s => s.bearEventId == eventId && s.playerId == player.id) db.bearScores with
        | some iv =>
          let s := iv.2
          if decide (s.score < damagePoints) || (rankTruthy rank && rank != s.rank) then
            let s1 := { s with score := max damagePoints s.score }
            let s2 := if rank.isSome then { s1 with rank := rank } else s1
            let s3 := { s2 with recordedAt := recordedAt }
            ({ db with bearScores := db.bearScores.set iv.1 s3 },
             { counts with scoresUpdated := counts.scoresUpdated + 1 })
          else
            (db, { counts with scoresSkipped := counts.scoresSkipped + 1 })
        | none =>
          ({ db with bearScores := db.bearScores ++
              [{ bearEventId := eventId, playerId := player.id, score := damagePoints,
                 rank := rank, recordedAt := recordedAt }] },
           { counts with scoresAdded := counts.scoresAdded + 1 })

/-- `save_bear_event_ocr(session, alliance_id, trap_id, started_at,
players_data, recorded_at)`. -/
def saveBearEventOcr (db : DB) (allianceId : Nat) (trapId : Int) (startedAt : Int)
    (playersData : List BearRow) (recordedAt : Int) : DB × BearCounts :=
  let dbev := findOrCreateBearEvent db allianceId trapId startedAt
  playersData.foldl (bearScoreStep allianceId dbev.2.id recordedAt)
    (dbev.1, { eventId := dbev.2.id, scoresAdded := 0, scoresUpdated := 0, scoresSkipped := 0 })

/-! ## `observatory/db/foundry_operations.py` -/

/-- The exact `(alliance_id, legion_number, event_date)` predicate of the
foundry event queries. -/
def foundryKeyMatch (allianceId : Nat) (legionNumber eventDate : Int)
    (e : FoundryEvent) : Bool :=
  e.allianceId == allianceId && e.legionNumber == legionNumber && e.eventDate == eventDate

/-- The stats overwrites `find_or_create_foundry_event` applies to an
existing event (`if x is not None: event.f = x`, per field). -/
def applyFoundryStats (totalTroopPower maxParticipants actualParticipants : Option Int)
    (e : FoundryEvent) : FoundryEvent :=
  let e1 := if totalTroopPower.isSome then { e with totalTroopPower := totalTroopPower } else e
  let e2 := if maxParticipants.isSome then { e1 with maxParticipants := maxParticipants } else e1
  if actualParticipants.isSome then { e2 with actualParticipants := actualParticipants }
  else e2

/-- `find_or_create_foundry_event`: exact match on `(alliance_id,
legion_number, event_date)`; overwrite supplied stats on an existing event. -/
def findOrCreateFoundryEvent (db : DB) (allianceId : Nat) (legionNumber : Int)
    (eventDate : Int) (totalTroopPower : Option Int := none)
    (maxParticipants : Option Int := none) (actualParticipants : Option Int := none) :
    DB × FoundryEvent :=
  match findIdxVal (foundryKeyMatch allianceId legionNumber eventDate) db.foundryEvents with
  | none =>
    let e : FoundryEvent :=
      { id := db.nextFoundryEventId, allianceId := allianceId, legionNumber := legionNumber,
        eventDate := eventDate, totalTroopPower := totalTroopPower,
        maxParticipants := maxParticipants, actualParticipants := actualParticipants }
    let db1 := { db with foundryEvents := db.foundryEvents ++ [e] }
    ({ db1 with nextFoundryEventId := db.nextFoundryEventId + 1 }, e)
  | some iv =>
    let e3 := applyFoundryStats totalTroopPower maxParticipants actualParticipants iv.2
    ({ db with foundryEvents := db.foundryEvents.set iv.1 e3 }, e3)

/-- Input row for `save_foundry_signup_ocr` (one entry of
`signup_data["players"]`). -/
structure FoundrySignupRow where
  name : Option String := none
  status : Option String := none
  foundryPower : Option Int := none
  voted : Option Bool := none
  deriving Repr, DecidableEq

/-- Header and rows of `signup_data`. -/
structure FoundrySignupData where
  totalTroopPower : Option Int := none
  maxParticipants : Option Int := none
  actualParticipants : Option Int := none
  players : List FoundrySignupRow := []
  deriving Repr, DecidableEq

/-- Counts dictionary of `save_foundry_signup_ocr`:
`{"event_id": …, "signups": …}` — created rows only. -/
structure FoundrySignupCounts where
  eventId : Nat
  signups : Nat
  deriving Repr, DecidableEq

/-- `add_foundry_signup`: insert unless a row for `(event, player)` exists. -/
def addFoundrySignup (db : DB) (foundryEventId : Nat) (playerId : Nat)
    (foundryPower : Int) (voted : Bool) (recordedAt : Int) : DB × Bool :=
  if db.foundrySignups.any
      (fun s => s.foundryEventId == foundryEventId && s.playerId == playerId) then
    (db, false)
  else
    ({ db with foundrySignups := db.foundrySignups ++
        [{ foundryEventId := foundryEventId, playerId := playerId,
           foundryPower := foundryPower, voted := voted, recordedAt := recordedAt }] },
     true)

/-- Loop body of `save_foundry_signup_ocr` for one player row: skip rows
without a name or whose status is not `"join"`, strip the tag, resolve with
the fuzzy fallback, then first-write-wins insert. -/
def foundrySignupStep (allianceId : Nat) (eventId : Nat) (recordedAt : Int)
    (acc : DB × Nat) (row : FoundrySignupRow) : DB × Nat :=
  let db := acc.1
  match row.name with
  | none => acc
  | some name =>
    if name == "" then acc
    else if row.status != some "join" then acc
    else
      let playerName := stripTag name
      match findPlayerWithFuzzyFallback db.players allianceId playerName with
      | none => acc
      | some player =>
        let dbIns := addFoundrySignup db eventId player.id (row.foundryPower.getD 0)
          (row.voted.getD false) recordedAt
        (dbIns.1, if dbIns.2 then acc.2 + 1 else acc.2)

/-- `save_foundry_signup_ocr(session, alliance_id, legion_number, event_date,
signup_data, recorded_at, screenshot_filename=None)`. -/
def saveFoundrySignupOcr (db : DB) (allianceId : Nat) (legionNumber : Int)
    (eventDate : Int) (signupData : FoundrySignupData) (recordedAt : Int) :
    DB × FoundrySignupCounts :=
  let dbev := findOrCreateFoundryEvent db allianceId legionNumber eventDate
    signupData.totalTroopPower signupData.maxParticipants signupData.actualParticipants
  let out := signupData.players.foldl (foundrySignupStep allianceId dbev.2.id recordedAt)
    (dbev.1, 0)
  (out.1, { eventId := dbev.2.id, signups := out.2 })

/-- Input row for `save_foundry_result_ocr`. -/
structure FoundryResultRow where
  name : Option String := none
  score : Option Int := none
  rank : Option Int := none
  deriving Repr, DecidableEq

/-- Counts dictionary of `save_foundry_result_ocr`:
`{"event_id": …, "results": …}` — created rows only. -/
structure FoundryResultCounts where
  eventId : Nat
  results : Nat
  deriving Repr, DecidableEq

/-- `add_foundry_result`: insert unless a row for `(event, player)` exists. -/
def addFoundryResult (db : DB) (foundryEventId : Nat) (playerId : Nat)
    (score : Int) (rank : Option Int) (recordedAt : Int) : DB × Bool :=
  if db.foundryResults.any
      (fun r => r.foundryEventId == foundryEventId && r.playerId == playerId) then
    (db, false)
  else
    ({ db with foundryResults := db.foundryResults ++
        [{ foundryEventId := foundryEventId, playerId := playerId, score := score,
           rank := rank, recordedAt := recordedAt }] },
     true)

/-- Loop body of `save_foundry_result_ocr` for one player row. -/
def foundryResultStep (allianceId : Nat) (eventId : Nat) (recordedAt : Int)
    (acc : DB × Nat) (row : FoundryResultRow) : DB × Nat :=
  let db := acc.1
  match row.name with
  | none => acc
  | some name =>
    if name == "" then acc
    else
      let playerName := stripTag name
      match findPlayerWithFuzzyFallback db.players allianceId playerName with
      | none => acc
      | some player =>
        let dbIns := addFoundryResult db eventId player.id (row.score.getD 0) row.rank recordedAt
        (dbIns.1, if dbIns.2 then acc.2 + 1 else acc.2)

/-- `save_foundry_result_ocr(session, alliance_id, legion_number, event_date,
players_data, recorded_at, screenshot_filename=None)`: look the event up by
exact key (creating it when the signup phase never ran), then first-write-wins
insert per player. -/
def saveFoundryResultOcr (db : DB) (allianceId : Nat) (legionNumber : Int)
    (eventDate : Int) (playersData : List FoundryResultRow) (recordedAt : Int) :
    DB × FoundryResultCounts :=
  let dbev :=
    match db.foundryEvents.find? (foundryKeyMatch allianceId legionNumber eventDate) with
    | some e => (db, e)
    | none => findOrCreateFoundryEvent db allianceId legionNumber eventDate
  let out := playersData.foldl (foundryResultStep allianceId dbev.2.id recordedAt) (dbev.1, 0)
  (out.1, { eventId := dbev.2.id, results := out.2 })

/-! ## `observatory/db/ac_operations.py` -/

/-- `find_or_create_ac_event`: exact match on `(alliance_id,
week_start_date)`; overwrite supplied stats on an existing event. -/
def findOrCreateACEvent (db : DB) (allianceId : Nat) (weekStartDate : Int)
    (totalRegistered : Option Int := none) (totalPower : Option Int := none) :
    DB × ACEvent :=
  let keyMatch := fun (e : ACEvent) =>
    e.allianceId == allianceId && e.weekStartDate == weekStartDate
  match findIdxVal keyMatch db.acEvents with
  | none =>
    let e : ACEvent :=
      { id := db.nextACEventId, allianceId := allianceId, weekStartDate := weekStartDate,
        totalRegistered := totalRegistered, totalPower := totalPower }
    let db1 := { db with acEvents := db.acEvents ++ [e] }
    ({ db1 with nextACEventId := db.nextACEventId + 1 }, e)
  | some iv =>
    let e := iv.2
    let e1 := if totalRegistered.isSome then { e with totalRegistered := totalRegistered } else e
    let e2 := if totalPower.isSome then { e1 with totalPower := totalPower } else e1
    ({ db with acEvents := db.acEvents.set iv.1 e2 }, e2)

/-- Input row for `save_ac_signup_ocr`. -/
structure ACRow where
  name : Option String := none
  acPower : Option Int := none
  deriving Repr, DecidableEq

/-- Header and rows of the AC `signup_data`. -/
structure ACSignupData where
  totalRegistered : Option Int := none
  totalPower : Option Int := none
  players : List ACRow := []
  deriving Repr, DecidableEq

/-- Counts dictionary of `save_ac_signup_ocr`: `{"event_id": …, "signups": …}`
— created rows only; updates and skips leave the count untouched. -/
structure ACCounts where
  eventId : Nat
  signups : Nat
  deriving Repr, DecidableEq

/-- Loop body of `save_ac_signup_ocr` for one player row: strip the tag,
resolve by exact lookup only (no fuzzy fallback), then insert or
improve-on-write on `ac_power`. -/
def acSignupStep (allianceId : Nat) (eventId : Nat) (recordedAt : Int)
    (acc : DB × Nat) (row : ACRow) : DB × Nat :=
  let db := acc.1
  match row.name with
  | none => acc
  | some name =>
    if name == "" then acc
    else
      let playerName := stripTag name
      match db.players.find? (fun p => p.allianceId == allianceId && p.name == playerName) with
      | none => acc
      | some player =>
        let acPower := row.acPower.getD 0
        match findIdxVal
            (fun s => s.acEventId == eventId && s.playerId == player.id) db.acSignups with
        | some iv =>
          let s := iv.2
          if decide (s.acPower < acPower) then
            let s1 := { s with acPower := acPower }
            let s2 := { s1 with recordedAt := recordedAt }
            ({ db with acSignups := db.acSignups.set iv.1 s2 }, acc.2)
          else
            (db, acc.2)
        | none =>
          ({ db with acSignups := db.acSignups ++
              [{ acEventId := eventId, playerId := player.id, acPower := acPower,
                 recordedAt := recordedAt }] },
           acc.2 + 1)

/-- `save_ac_signup_ocr(session, alliance_id, week_start_date, signup_data,
recorded_at)`. -/
def saveAcSignupOcr (db : DB) (allianceId : Nat) (weekStartDate : Int)
    (signupData : ACSignupData) (recordedAt : Int) : DB × ACCounts :=
  let dbev := findOrCreateACEvent db allianceId weekStartDate
    signupData.totalRegistered signupData.totalPower
  let out := signupData.players.foldl (acSignupStep allianceId dbev.2.id recordedAt) (dbev.1, 0)
  (out.1, { eventId := dbev.2.id, signups := out.2 })

/-! ## `observatory/db/contribution_operations.py` -/

/-- Input row for `save_contribution_snapshot_ocr`. -/
structure ContribRow where
  name : Option String := none
  contribution : Option Int := none
  rank : Option Int := none
  deriving Repr, DecidableEq

/-- Counts dictionary of `save_contribution_snapshot_ocr`:
`{"snapshots": …}` — created rows only. -/
structure ContributionCounts where
  snapshots : Nat
  deriving Repr, DecidableEq

/-- Loop body of `save_contribution_snapshot_ocr` for one player row
(`weekStart` and `snapshotDate` are already normalized): strip the tag,
resolve by exact lookup only (no fuzzy fallback), then hard-skip insert on
the `(alliance, player, week_start, snapshot_date)` key. -/
def contributionStep (allianceId : Nat) (weekStart snapshotDate recordedAt : Int)
    (acc : DB × Nat) (row : ContribRow) : DB × Nat :=
  let db := acc.1
  match row.name with
  | none => acc
  | some name =>
    if name == "" then acc
    else
      let playerName := stripTag name
      match db.players.find? (fun p => p.allianceId == allianceId && p.name == playerName) with
      | none => acc
      | some player =>
        if db.contributionSnapshots.any
            (fun s => s.allianceId == allianceId && s.playerId == player.id &&
              s.weekStartDate == weekStart && s.snapshotDate == snapshotDate) then
          acc
        else
          ({ db with contributionSnapshots := db.contributionSnapshots ++
              [{ allianceId := allianceId, playerId := player.id,
                 weekStartDate := weekStart, snapshotDate := snapshotDate,
                 contributionAmount := row.contribution.getD 0, rank := row.rank,
                 recordedAt := recordedAt }] },
           acc.2 + 1)

/-- `save_contribution_snapshot_ocr(session, alliance_id, week_start_date,
snapshot_date, players_data, recorded_at)`: normalize both dates to midnight
UTC, then hard-skip insert per player. -/
def saveContributionSnapshotOcr (db : DB) (allianceId : Nat)
    (weekStartDate snapshotDate : Int) (playersData : List ContribRow)
    (recordedAt : Int) : DB × ContributionCounts :=
  let weekStart := floorToMidnightUTC weekStartDate
  let snapDate := floorToMidnightUTC snapshotDate
  let out := playersData.foldl (contributionStep allianceId weekStart snapDate recordedAt)
    (db, 0)
  (out.1, { snapshots := out.2 })

/-! ## `observatory/db/alliance_power_operations.py` -/

/-- Row of `alliance_power_snapshots` (append-only, no dedup key). -/
structure AlliancePowerRow where
  allianceName : String
  allianceTag : Option String := none
  totalPower : Int
  rank : Option Int := none
  snapshotDate : Int
  recordedAt : Int
  deriving Repr, DecidableEq

/-- Input row for `save_alliance_power_snapshot_ocr`. -/
structure AllianceOcrRow where
  allianceNameWithTag : Option String := none
  totalPower : Option Int := none
  rank : Option Int := none
  deriving Repr, DecidableEq

/-! ## `observatory/screenshot_processor.py` -/

/-- Python call binding: the declared parameter names of a `def` together
with how many of them lack defaults (always a prefix in this codebase). -/
structure PySig where
  params : List String
  numRequired : Nat
  deriving Repr, DecidableEq

/-- Whether a Python call with `npos` positional arguments and the given
keyword-argument names binds against a signature.  A keyword argument whose
name is not a declared parameter raises
`TypeError: … got an unexpected keyword argument …` before the function body
runs. -/
def pyCallBindOk (sig : PySig) (npos : Nat) (kwargs : List String) : Bool :=
  npos ≤ sig.params.length &&
  kwargs.all (fun k => sig.params.contains k) &&
  kwargs.all (fun k => !(sig.params.take npos).contains k) &&
  noDupBy id kwargs &&
  (sig.params.take sig.numRequired).all
    (fun p => (sig.params.take npos).contains p || kwargs.contains p)

/-- Signature of `save_bear_event_ocr` in `bear_operations.py` (it has no
`screenshot_filename` parameter). -/
def saveBearEventOcrSig : PySig :=
  { params := ["session", "alliance_id", "trap_id", "started_at", "players_data",
      "recorded_at"],
    numRequired := 6 }

/-- Signature of `save_ac_signup_ocr` in `ac_operations.py` (no
`screenshot_filename` parameter). -/
def saveAcSignupOcrSig : PySig :=
  { params := ["session", "alliance_id", "week_start_date", "signup_data", "recorded_at"],
    numRequired := 5 }

/-- Signature of `save_contribution_snapshot_ocr` in
`contribution_operations.py` (no `screenshot_filename` parameter). -/
def saveContributionSnapshotOcrSig : PySig :=
  { params := ["session", "alliance_id", "week_start_date", "snapshot_date",
      "players_data", "recorded_at"],
    numRequired := 6 }

/-- Signature of `save_foundry_signup_ocr` (this one does declare
`screenshot_filename`, with a default). -/
def saveFoundrySignupOcrSig : PySig :=
  { params := ["session", "alliance_id", "legion_number", "event_date", "signup_data",
      "recorded_at", "screenshot_filename"],
    numRequired := 6 }

/-- Signature of `save_foundry_result_ocr` (declares `screenshot_filename`
with a default). -/
def saveFoundryResultOcrSig : PySig :=
  { params := ["session", "alliance_id", "legion_number", "event_date", "players_data",
      "recorded_at", "screenshot_filename"],
    numRequired := 6 }

/-- Python `datetime.weekday()` (Monday = 0) of a UTC instant; the Unix epoch
fell on a Thursday. -/
def pyWeekday (t : Int) : Int := ((t.fdiv microsPerDay) + 3).emod 7

/-- Extraction output handed to the per-type processing routine (the vision /
OCR backends are external collaborators, so their parsed JSON is an input of
the embedding). -/
inductive Extracted where
  | allianceMembers (rows : List MemberRow)
  | bearDamage (trapId : Option Int) (players : List BearRow)
  | bearOverview (trapId : Option Int) (rallyCount : Option Int) (totalDamage : Option Int)
  | foundrySignup (legionNumber : Option Int) (data : FoundrySignupData)
  | foundryResult (legionNumber : Option Int) (players : List FoundryResultRow)
  | acSignup (data : ACSignupData)
  | contribution (players : List ContribRow)
  | alliancePower (alliances : List AllianceOcrRow)
  deriving Repr, DecidableEq

/-- Per-file result dictionary of `ScreenshotProcessor.process_screenshot`
(restricted to the fields the claims mention). -/
structure ProcResult where
  stype : String
  success : Bool
  recordsSaved : Nat
  deriving Repr, DecidableEq

/-- `ScreenshotProcessor.process_screenshot` dispatch: one branch per
detected type.  Each branch embeds the corresponding `_process_*` helper,
including the exact Python call it makes into `observatory/db`: when that
call does not bind (an unexpected keyword argument), the `TypeError` is
caught by the generic `except Exception` handler and the file result keeps
`success=False` with no database change.  A screenshot type with no branch
(or a type/extraction mismatch, which cannot arise in the source) lands in
the `unknown` branch, which never invokes a persistence routine. -/
def processScreenshot (db : DB) (allianceId : Nat) (stype : String)
    (ex : Extracted) (timestamp : Int) : DB × ProcResult :=
  match stype, ex with
  | "alliance_members", .allianceMembers rows =>
    match saveAllianceMembersOcr db allianceId rows timestamp with
    | .ok out =>
      -- `_process_alliance_members` returns `result.get("players_updated", 0)`;
      -- the dict built by `save_alliance_members_ocr` has no such key.
      (out.1, { stype := stype, success := true, recordsSaved := 0 })
    | .error _ => (db, { stype := stype, success := false, recordsSaved := 0 })
  | "bear_damage", .bearDamage trapId players =>
    if pyCallBindOk saveBearEventOcrSig 6 ["screenshot_filename"] then
      let out := saveBearEventOcr db allianceId (trapId.getD 1) timestamp players timestamp
      (out.1, { stype := stype, success := true, recordsSaved := players.length })
    else (db, { stype := stype, success := false, recordsSaved := 0 })
  | "foundry_signup", .foundrySignup legionNumber data =>
    if pyCallBindOk saveFoundrySignupOcrSig 6 ["screenshot_filename"] then
      let wd := pyWeekday timestamp
      let daysUntilSunday := if (6 - wd).emod 7 == 0 then 7 else (6 - wd).emod 7
      let eventDate := timestamp + daysUntilSunday * microsPerDay
      let out := saveFoundrySignupOcr db allianceId (legionNumber.getD 1) eventDate
        data timestamp
      (out.1, { stype := stype, success := true, recordsSaved := out.2.signups })
    else (db, { stype := stype, success := false, recordsSaved := 0 })
  | "foundry_result", .foundryResult legionNumber players =>
    if pyCallBindOk saveFoundryResultOcrSig 6 ["screenshot_filename"] then
      let daysSinceSunday := (pyWeekday timestamp + 1).emod 7
      let eventDate := timestamp - daysSinceSunday * microsPerDay
      let out := saveFoundryResultOcr db allianceId (legionNumber.getD 1) eventDate
        players timestamp
      (out.1, { stype := stype, success := true, recordsSaved := out.2.results })
    else (db, { stype := stype, success := false, recordsSaved := 0 })
  | "ac_signup", .acSignup data =>
    if pyCallBindOk saveAcSignupOcrSig 5 ["screenshot_filename"] then
      let weekStart := timestamp - pyWeekday timestamp * microsPerDay
      let out := saveAcSignupOcr db allianceId weekStart data timestamp
      (out.1, { stype := stype, success := true, recordsSaved := out.2.signups })
    else (db, { stype := stype, success := false, recordsSaved := 0 })
  | "contribution", .contribution players =>
    if pyCallBindOk saveContributionSnapshotOcrSig 6 ["screenshot_filename"] then
      let weekStart := timestamp - pyWeekday timestamp * microsPerDay
      let out := saveContributionSnapshotOcr db allianceId weekStart timestamp
        players timestamp
      (out.1, { stype := stype, success := true, recordsSaved := out.2.snapshots })
    else (db, { stype := stype, success := false, recordsSaved := 0 })
  | "alliance_power", .alliancePower alliances =>
    -- `save_alliance_power_snapshot_ocr` appends one row per named alliance.
    let saved := (alliances.filter
      (fun a => a.allianceNameWithTag != none && a.allianceNameWithTag != some "")).length
    (db, { stype := stype, success := true, recordsSaved := saved })
  | "bear_overview", .bearOverview trapId rallyCount totalDamage =>
    match trapId with
    | some tid =>
      if tid == 0 then
        -- Python truthiness: `data.get("trap_id")` equal to 0 is falsy.
        (db, { stype := stype, success := false, recordsSaved := 0 })
      else
        let out := findOrCreateBearEvent db allianceId tid timestamp none rallyCount totalDamage
        (out.1, { stype := stype, success := true, recordsSaved := 1 })
    | none => (db, { stype := stype, success := false, recordsSaved := 0 })
  | _, _ =>
    (db, { stype := stype, success := false, recordsSaved := 0 })

/-! ## `observatory/api.py` — `upload_screenshots` batch loop -/

/-- One uploaded file. -/
structure UploadFile where
  filename : String
  deriving Repr, DecidableEq

/-- One entry of the batch `results` list. -/
structure FileEntry where
  filename : String
  stype : String
  success : Bool
  recordsSaved : Nat
  deriving Repr, DecidableEq

/-- Batch-level output of `upload_screenshots`. -/
structure BatchOutput where
  results : List FileEntry
  successful : Nat
  totalRecords : Nat
  deriving Repr, DecidableEq

/-- The per-file loop of `upload_screenshots`.  `proc` abstracts
`processor.process_screenshot(session, file_path)` for one file: `.ok r` when
it returns a result dictionary (itself possibly `success=False`), `.error e`
when an exception escapes it.  The `try/except` around the call catches any
exception, appends an error entry for that file, and continues with the next
file; the summary line counts the entries with `success=True` and sums their
`records_saved`. -/
def uploadScreenshots (proc : UploadFile → Except String ProcResult)
    (files : List UploadFile) : BatchOutput :=
  let results := files.map (fun f =>
    match proc f with
    | .ok r =>
      { filename := f.filename, stype := r.stype, success := r.success,
        recordsSaved := r.recordsSaved }
    | .error _ =>
      ({ filename := f.filename, stype := "error", success := false,
         recordsSaved := 0 } : FileEntry))
  { results := results,
    successful := (results.filter (·.success)).length,
    totalRecords := (results.map (·.recordsSaved)).sum }

/-! ## Supporting lemmas on list primitives -/

theorem list_set_self {α : Type} (l : List α) (i : Nat) (v : α)
    (h : l.get? i = some v) : l.set i v = l := by
  induction l generalizing i with
  | nil => simp at h
  | cons x xs ih =>
    cases i with
    | zero => simp_all
    | succ n => simp_all [List.set]

theorem findIdxVal_none {α : Type} (p : α → Bool) (l : List α) :
    findIdxVal p l = none ↔ ∀ x ∈ l, p x = false := by
  induction l with
  | nil => simp [findIdxVal]
  | cons x xs ih =>
    by_cases hx : p x
    · simp [findIdxVal, hx]
    · simp only [findIdxVal, hx, if_neg, Bool.false_eq_true, not_false_iff]
      cases hfl : findIdxVal p xs with
      | none =>
        simp only [hfl, Option.map_none'] at *
        simp_all
      | some iv =>
        simp only [hfl, Option.map_some'] at *
        simp_all

theorem findIdxVal_some {α : Type} (p : α → Bool) (l : List α) (i : Nat) (v : α)
    (h : findIdxVal p l = some (i, v)) :
    l.get? i = some v ∧ p v = true := by
  induction l generalizing i with
  | nil => simp [findIdxVal] at h
  | cons x xs ih =>
    by_cases hx : p x
    · simp [findIdxVal, hx] at h
      obtain ⟨hi, hv⟩ := h
      subst hi; subst hv
      simpa using hx
    · simp only [findIdxVal, hx, if_neg, Bool.false_eq_true, not_false_iff] at h
      cases hfl : findIdxVal p xs with
      | none => simp [hfl] at h
      | some iv =>
        simp only [hfl, Option.map_some'] at h
        cases h
        have := ih iv.1 hfl
        simpa using this

theorem findIdxVal_set_found {α : Type} (p : α → Bool) (l : List α) (i : Nat) (v v' : α)
    (h : findIdxVal p l = some (i, v)) (hv' : p v' = true) :
    findIdxVal p (l.set i v') = some (i, v') := by
  induction l generalizing i with
  | nil => simp [findIdxVal] at h
  | cons x xs ih =>
    by_cases hx : p x
    · simp [findIdxVal, hx] at h
      obtain ⟨hi, _⟩ := h
      subst hi
      simp [List.set, findIdxVal, hv']
    · simp only [findIdxVal, hx, if_neg, Bool.false_eq_true, not_false_iff] at h
      cases hfl : findIdxVal p xs with
      | none => simp [hfl] at h
      | some iv =>
        simp only [hfl, Option.map_some'] at h
        cases h
        simp [List.set, findIdxVal, hx, ih iv.1 hfl]

theorem findIdxVal_append_new {α : Type} (p : α → Bool) (l : List α) (v : α)
    (h : findIdxVal p l = none) (hv : p v = true) :
    findIdxVal p (l ++ [v]) = some (l.length, v) := by
  induction l with
  | nil => simp [findIdxVal, hv]
  | cons x xs ih =>
    have hx : p x = false := (findIdxVal_none p (x :: xs)).mp h x (by simp)
    have hxs : findIdxVal p xs = none := by
      rw [findIdxVal_none] at h ⊢
      intro y hy
      exact h y (by simp [hy])
    simp [findIdxVal, hx, ih hxs]

/-! ## Lemmas about the fuzzy matcher -/

theorem pickBest_fold_some (word : String) (l : List String) (acc : Option String)
    (b : String) (h : l.foldl (pickBestStep word) acc = some b) :
    (b ∈ l ∨ acc = some b) ∧
    (∀ x ∈ l, strRatio x word ≤ strRatio b word) ∧
    (∀ a, acc = some a → strRatio a word ≤ strRatio b word) := by
  induction l generalizing acc with
  | nil =>
    simp only [List.foldl_nil] at h
    refine ⟨Or.inr h, by simp, fun a ha => ?_⟩
    rw [h] at ha
    cases ha
    exact le_refl _
  | cons x xs ih =>
    simp only [List.foldl_cons] at h
    obtain ⟨hmem, hbound, hacc⟩ := ih (pickBestStep word acc x) h
    have hxle : strRatio x word ≤ strRatio b word := by
      cases hacci : acc with
      | none =>
        exact hacc x (by simp [pickBestStep, hacci])
      | some b0 =>
        by_cases hcond : strRatio b0 word < strRatio x word ∨
            (strRatio x word = strRatio b0 word ∧ pyStrLt b0 x)
        · exact hacc x (by simp [pickBestStep, hacci, hcond])
        · have hb0 : strRatio b0 word ≤ strRatio b word :=
            hacc b0 (by simp [pickBestStep, hacci, hcond])
          rw [not_or] at hcond
          exact le_trans (not_lt.mp hcond.1) hb0
    refine ⟨?_, ?_, ?_⟩
    · rcases hmem with hb | hb
      · exact Or.inl (List.mem_cons_of_mem _ hb)
      · cases hacci : acc with
        | none =>
          rw [hacci] at hb
          simp only [pickBestStep] at hb
          cases hb
          exact Or.inl (List.mem_cons_self _ _)
        | some b0 =>
          rw [hacci] at hb
          by_cases hcond : strRatio b0 word < strRatio x word ∨
              (strRatio x word = strRatio b0 word ∧ pyStrLt b0 x)
          · simp only [pickBestStep, hcond, if_true] at hb
            cases hb
            exact Or.inl (List.mem_cons_self _ _)
          · simp only [pickBestStep, hcond, if_false] at hb
            exact Or.inr (hacci ▸ hb)
    · intro y hy
      rcases List.mem_cons.mp hy with hyx | hyxs
      · exact hyx ▸ hxle
      · exact hbound y hyxs
    · intro a ha
      cases hacci : acc with
      | none => rw [hacci] at ha; cases ha
      | some b0 =>
        rw [hacci] at ha
        cases ha
        by_cases hcond : strRatio a word < strRatio x word ∨
            (strRatio x word = strRatio a word ∧ pyStrLt a x)
        · have : strRatio a word ≤ strRatio x word := by
            rcases hcond with hlt | ⟨heq, _⟩
            · exact le_of_lt hlt
            · exact le_of_eq heq.symm
          exact le_trans this hxle
        · exact hacc a (by simp [pickBestStep, hacci, hcond])

theorem getCloseMatch1_none_of (word : String) (possibilities : List String) (cutoff : ℚ)
    (h : ∀ x ∈ possibilities, strRatio x word < cutoff) :
    getCloseMatch1 word possibilities cutoff = none := by
  unfold getCloseMatch1
  have : possibilities.filter (fun x => decide (cutoff ≤ strRatio x word)) = [] := by
    rw [List.filter_eq_nil_iff]
    intro x hx
    simp only [decide_eq_true_eq]
    exact not_le.mpr (h x hx)
  rw [this]
  rfl

theorem getCloseMatch1_some (word : String) (possibilities : List String) (cutoff : ℚ)
    (b : String) (h : getCloseMatch1 word possibilities cutoff = some b) :
    b ∈ possibilities ∧ cutoff ≤ strRatio b word ∧
      ∀ x ∈ possibilities, strRatio x word ≤ strRatio b word := by
  unfold getCloseMatch1 at h
  obtain ⟨hmem, hbound, -⟩ := pickBest_fold_some word _ none b h
  have hbq : b ∈ possibilities.filter (fun x => decide (cutoff ≤ strRatio x word)) := by
    rcases hmem with hb | hb
    · exact hb
    · cases hb
  obtain ⟨hbposs, hbcut⟩ := List.mem_filter.mp hbq
  refine ⟨hbposs, by simpa using hbcut, fun x hx => ?_⟩
  by_cases hq : cutoff ≤ strRatio x word
  · exact hbound x (List.mem_filter.mpr ⟨hx, by simpa using hq⟩)
  · exact le_trans (le_of_lt (not_le.mp hq)) (by simpa using hbcut)

theorem fuzzyMatchPlayer_none_of (players : List Player) (allianceId : Nat)
    (playerName : String) (threshold : ℚ)
    (h : ∀ q ∈ players, q.allianceId = allianceId →
      strRatio q.name playerName < threshold) :
    fuzzyMatchPlayer players allianceId playerName threshold = (none, 0) := by
  unfold fuzzyMatchPlayer
  by_cases hempty : (players.filter (fun p => p.allianceId == allianceId)).isEmpty
  · simp [hempty]
  · have hnone : getCloseMatch1 playerName
        ((players.filter (fun p => p.allianceId == allianceId)).map (·.name)) threshold
        = none := by
      apply getCloseMatch1_none_of
      intro x hx
      obtain ⟨q, hq, hqx⟩ := List.mem_map.mp hx
      obtain ⟨hqp, hqa⟩ := List.mem_filter.mp hq
      exact hqx ▸ h q hqp (by simpa using hqa)
    simp [hempty, hnone]

theorem fuzzyMatchPlayer_some (players : List Player) (allianceId : Nat)
    (playerName : String) (threshold : ℚ) (p : Player)
    (h : (fuzzyMatchPlayer players allianceId playerName threshold).1 = some p) :
    p ∈ players ∧ p.allianceId = allianceId ∧ threshold ≤ strRatio p.name playerName ∧
      ∀ q ∈ players, q.allianceId = allianceId →
        strRatio q.name playerName ≤ strRatio p.name playerName := by
  unfold fuzzyMatchPlayer at h
  by_cases hempty : (players.filter (fun q => q.allianceId == allianceId)).isEmpty
  · simp [hempty] at h
  · simp only [hempty, if_false] at h
    cases hmatch : getCloseMatch1 playerName
        ((players.filter (fun q => q.allianceId == allianceId)).map (·.name)) threshold with
    | none => rw [hmatch] at h; simp at h
    | some best =>
      rw [hmatch] at h
      simp only at h
      obtain ⟨hbposs, hbcut, hbmax⟩ := getCloseMatch1_some _ _ _ _ hmatch
      have hfind := List.find?_some h
      have hpmem := List.mem_of_find?_eq_some h
      have hpname : p.name = best := by simpa using hfind
      obtain ⟨hpin, hpall⟩ := List.mem_filter.mp hpmem
      refine ⟨hpin, by simpa using hpall, hpname ▸ hbcut, fun q hq hqa => ?_⟩
      have hqname : q.name ∈
          (players.filter (fun r => r.allianceId == allianceId)).map (·.name) :=
        List.mem_map.mpr ⟨q, List.mem_filter.mpr ⟨hq, by simpa using hqa⟩, rfl⟩
      exact hpname ▸ hbmax q.name hqname

/-! ## Claim C6 — fuzzy matcher semantics -/

/-- Claim C6, counterexample.  The claim asserts a case-insensitive ratio and
a ratio of ≈ 0.93 for `"Valor1n"` vs `"Valorin"`.  In the code the cutoff
comparison of `difflib.get_close_matches` is case-sensitive — `"VALORIN"`
against roster entry `"valorin"` fails to resolve at threshold 0.85 even
though their case-insensitive similarity is 1 — and the actual ratio of
`"Valor1n"` vs `"Valorin"` is 6/7 ≈ 0.857, below 0.9, so not ≈ 0.93. -/
theorem claim_C6_counterexample :
    fuzzyMatchPlayer [{ id := 1, allianceId := 1, name := "valorin" }] 1 "VALORIN"
        (mkRat 85 100) = (none, 0) ∧
    strRatio (strLower "VALORIN") (strLower "valorin") = 1 ∧
    strRatio "Valor1n" "Valorin" = mkRat 6 7 ∧
    mkRat 6 7 < mkRat 9 10 := by
  exact ⟨by decide, by decide, by decide, by decide⟩

/-- Claim C6, amended: `fuzzy_match_player` filters the alliance roster by
the case-sensitive difflib ratio against the threshold (default 0.85), where
each ratio is computed with the roster candidate as `seq1` and the OCR name
as `seq2` (`get_close_matches` calls `set_seq2(word)` then `set_seq1(x)` per
candidate) — and the ratio is asymmetric
(`ratio("aba","bca") = 1/3` but `ratio("bca","aba") = 2/3`, so roster
`"bca"` resolves `"aba"` at threshold 1/2).  It accepts the highest-scoring
candidate that clears the cutoff and returns it with the case-insensitive
similarity of the winning name, and returns `(None, 0.0)` when no roster
name clears the cutoff; `"Valor1n"` against roster entry `"Valorin"` has
ratio 6/7 ≈ 0.857 (not ≈ 0.93), resolves at threshold 0.85 and fails to
resolve at threshold 0.95. -/
theorem claim_C6_amended :
    fuzzyMatchPlayer [{ id := 1, allianceId := 1, name := "Valorin" }] 1 "Valor1n"
        (mkRat 85 100) =
      (some { id := 1, allianceId := 1, name := "Valorin" }, mkRat 6 7) ∧
    fuzzyMatchPlayer [{ id := 1, allianceId := 1, name := "Valorin" }] 1 "Valor1n"
        (mkRat 95 100) = (none, 0) ∧
    strRatio "aba" "bca" = mkRat 1 3 ∧
    strRatio "bca" "aba" = mkRat 2 3 ∧
    (fuzzyMatchPlayer [{ id := 2, allianceId := 1, name := "bca" }] 1 "aba"
        (mkRat 1 2)).1 = some { id := 2, allianceId := 1, name := "bca" } ∧
    (∀ (players : List Player) (allianceId : Nat) (playerName : String) (threshold : ℚ),
      (∀ q ∈ players, q.allianceId = allianceId →
        strRatio q.name playerName < threshold) →
      fuzzyMatchPlayer players allianceId playerName threshold = (none, 0)) ∧
    (∀ (players : List Player) (allianceId : Nat) (playerName : String)
        (threshold : ℚ) (p : Player),
      (fuzzyMatchPlayer players allianceId playerName threshold).1 = some p →
      p ∈ players ∧ p.allianceId = allianceId ∧
        threshold ≤ strRatio p.name playerName ∧
        ∀ q ∈ players, q.allianceId = allianceId →
          strRatio q.name playerName ≤ strRatio p.name playerName) := by
  refine ⟨by decide, by decide, by decide, by decide, by decide,
    fuzzyMatchPlayer_none_of, fuzzyMatchPlayer_some⟩

/-- Claim C6, witness: the general clauses of `claim_C6_amended` applied at
concrete inputs. -/
theorem claim_C6_witness :
    fuzzyMatchPlayer [{ id := 1, allianceId := 1, name := "Valorin" }] 1 "Zzz"
        (mkRat 85 100) = (none, 0) ∧
    ({ id := 1, allianceId := 1, name := "Valorin" } : Player) ∈
      [({ id := 1, allianceId := 1, name := "Valorin" } : Player)] := by
  constructor
  · exact claim_C6_amended.2.2.2.2.2.1 _ 1 "Zzz" (mkRat 85 100) (by decide)
  · exact (claim_C6_amended.2.2.2.2.2.2 [{ id := 1, allianceId := 1, name := "Valorin" }]
      1 "Valor1n" (mkRat 85 100) _ (by decide)).1

/-! ## Claim C7 — tag stripping -/

/-- Claim C7, counterexample.  The upsert routines do not implement the
claimed `[`/`(` + 1–4 alphanumerics pattern: they strip any `[`-initiated
prefix up to the first `]` regardless of length (`"[LONGTAG]Bob"`), never
strip a parenthesised tag (`"(AB)Bob"`), and `.strip()` also removes
trailing whitespace (`"[HEI]Bob "`). -/
theorem claim_C7_counterexample :
    stripTag "[LONGTAG]Bob" = "Bob" ∧ specStripTag "[LONGTAG]Bob" = "[LONGTAG]Bob" ∧
    stripTag "(AB)Bob" = "(AB)Bob" ∧ specStripTag "(AB)Bob" = "Bob" ∧
    stripTag "[HEI]Bob " = "Bob" ∧ specStripTag "[HEI]Bob " = "Bob " := by
  exact ⟨by decide, by decide, by decide, by decide, by decide, by decide⟩

theorem dropWhileUntilRBracket (a b : List Char) (ha : ']' ∉ a) :
    (a ++ ']' :: b).dropWhile (fun c => c != ']') = ']' :: b := by
  induction a with
  | nil => simp [List.dropWhile]
  | cons x xs ih =>
    have hx : x ≠ ']' := fun hx => ha (hx ▸ List.mem_cons_self x xs)
    have hxs : ']' ∉ xs := fun hm => ha (List.mem_cons_of_mem x hm)
    rw [List.cons_append, List.dropWhile_cons,
      if_pos (by simpa using hx : (x != ']') = true)]
    exact ih hxs

/-- Claim C7, amended: before roster lookup the upsert routines strip one
leading `[`-initiated tag running to the first `]` (any length, `(` never
recognised), and then strip whitespace from both ends of the remainder; a
name that does not start with `[` or has no `]` is left unchanged; internal
symbols survive, e.g. `"[HEI]-✝-WRATH-✝-"` cleans to `"-✝-WRATH-✝-"`. -/
theorem claim_C7_amended :
    (∀ a b : List Char, ']' ∉ a →
      stripTagList ('[' :: (a ++ ']' :: b)) = pyStripList b) ∧
    (∀ cs : List Char, cs.head? ≠ some '[' → stripTagList cs = cs) ∧
    (∀ cs : List Char, cs.contains ']' = false → stripTagList cs = cs) ∧
    stripTag "[HEI]-✝-WRATH-✝-" = "-✝-WRATH-✝-" := by
  refine ⟨?_, ?_, ?_, by decide⟩
  · intro a b ha
    have hcont : (a ++ ']' :: b).contains ']' = true := by
      simp
    have hdrop := dropWhileUntilRBracket a b ha
    simp [stripTagList, hcont, hdrop]
  · intro cs hcs
    cases cs with
    | nil => rfl
    | cons c t =>
      have hc : c ≠ '[' := by simpa using hcs
      simp only [stripTagList]
      split
      · rename_i rest heq
        injection heq with h1 h2
        exact absurd h1 hc
      · rfl
  · intro cs hcs
    cases cs with
    | nil => rfl
    | cons c t =>
      have hparts : ¬ ']' = c ∧ ']' ∉ t := by simpa using hcs
      simp only [stripTagList]
      split
      · rename_i rest heq
        injection heq with h1 h2
        subst h2
        rw [if_neg]
        simpa using hparts.2
      · rfl

/-- Claim C7, witness: the general clauses of `claim_C7_amended` at concrete
inputs. -/
theorem claim_C7_witness :
    stripTagList ('[' :: ("HEI".data ++ ']' :: "Bob".data)) = pyStripList "Bob".data ∧
    stripTagList "Bob".data = "Bob".data := by
  constructor
  · exact claim_C7_amended.1 "HEI".data "Bob".data (by decide)
  · exact claim_C7_amended.2.1 "Bob".data (by decide)

/-! ## Claim C5 — exact-then-fuzzy resolution in the upsert routines -/

/-- Claim C5, counterexample.  `save_bear_event_ocr` resolves players with an
exact lookup only: the row `"Valor1n"`, which `fuzzy_match_player` would
resolve to roster entry `"Valorin"` with similarity 6/7 ≥ 0.85, is dropped —
no score row is persisted — so the claimed fuzzy step before skipping does
not exist in the bear routine. -/
theorem claim_C5_counterexample :
    (saveBearEventOcr { players := [{ id := 1, allianceId := 1, name := "Valorin" }] }
        1 1 0 [{ name := some "Valor1n", damagePoints := some 50 }] 0).1.bearScores = [] ∧
    (saveBearEventOcr { players := [{ id := 1, allianceId := 1, name := "Valorin" }] }
        1 1 0 [{ name := some "Valor1n", damagePoints := some 50 }] 0).2.scoresAdded = 0 ∧
    fuzzyMatchPlayer [{ id := 1, allianceId := 1, name := "Valorin" }] 1
        (stripTag "Valor1n") FUZZY_MATCH_THRESHOLD =
      (some { id := 1, allianceId := 1, name := "Valorin" }, mkRat 6 7) := by
  exact ⟨by decide, by decide, by decide⟩

/-- Claim C5, amended: only the foundry signup and foundry result routines
perform the exact-then-fuzzy resolution (`find_player_with_fuzzy_fallback`);
the bear score, AC signup and contribution snapshot routines do an exact
case-sensitive lookup only and drop the row on a miss, even when it would
fuzzy-match a roster member above the acceptance threshold. -/
theorem claim_C5_amended :
    (saveFoundrySignupOcr { players := [{ id := 1, allianceId := 1, name := "Valorin" }] }
        1 1 0 { players := [{ name := some "Valor1n", status := some "join",
                              foundryPower := some 9 }] } 0).2.signups = 1 ∧
    (saveFoundrySignupOcr { players := [{ id := 1, allianceId := 1, name := "Valorin" }] }
        1 1 0 { players := [{ name := some "Valor1n", status := some "join",
                              foundryPower := some 9 }] } 0).1.foundrySignups =
      [{ foundryEventId := 1, playerId := 1, foundryPower := 9, voted := false,
         recordedAt := 0 }] ∧
    (saveFoundryResultOcr { players := [{ id := 1, allianceId := 1, name := "Valorin" }] }
        1 1 0 [{ name := some "Valor1n", score := some 7 }] 0).2.results = 1 ∧
    (saveBearEventOcr { players := [{ id := 1, allianceId := 1, name := "Valorin" }] }
        1 1 0 [{ name := some "Valor1n", damagePoints := some 50 }] 0).1.bearScores = [] ∧
    (saveAcSignupOcr { players := [{ id := 1, allianceId := 1, name := "Valorin" }] }
        1 0 { players := [{ name := some "Valor1n", acPower := some 5 }] } 0).1.acSignups
      = [] ∧
    (saveContributionSnapshotOcr
        { players := [{ id := 1, allianceId := 1, name := "Valorin" }] }
        1 0 0 [{ name := some "Valor1n", contribution := some 3 }] 0).1.contributionSnapshots
      = [] := by
  exact ⟨by decide, by decide, by decide, by decide, by decide, by decide⟩

/-! ## Claim C8 — counts returned by the upsert routines -/

/-- Claim C8, counterexample.  `save_ac_signup_ocr` returns only
`{"event_id", "signups"}` where `signups` counts created rows: a batch that
updates an existing signup (50 → 100) and a batch that skips (100 → 50)
return identical counts, so callers cannot distinguish updated from skipped
rows; the claim that every upsert routine returns created/updated/skipped
counts is false. -/
theorem claim_C8_counterexample :
    (saveAcSignupOcr
        { players := [{ id := 1, allianceId := 1, name := "Valorin" }],
          acEvents := [{ id := 1, allianceId := 1, weekStartDate := 0 }],
          acSignups := [{ acEventId := 1, playerId := 1, acPower := 50, recordedAt := 0 }],
          nextACEventId := 2 }
        1 0 { players := [{ name := some "Valorin", acPower := some 100 }] } 5).2 =
      (saveAcSignupOcr
        { players := [{ id := 1, allianceId := 1, name := "Valorin" }],
          acEvents := [{ id := 1, allianceId := 1, weekStartDate := 0 }],
          acSignups := [{ acEventId := 1, playerId := 1, acPower := 100, recordedAt := 0 }],
          nextACEventId := 2 }
        1 0 { players := [{ name := some "Valorin", acPower := some 50 }] } 5).2 ∧
    (saveAcSignupOcr
        { players := [{ id := 1, allianceId := 1, name := "Valorin" }],
          acEvents := [{ id := 1, allianceId := 1, weekStartDate := 0 }],
          acSignups := [{ acEventId := 1, playerId := 1, acPower := 50, recordedAt := 0 }],
          nextACEventId := 2 }
        1 0 { players := [{ name := some "Valorin", acPower := some 100 }] } 5).1.acSignups
      ≠ [{ acEventId := 1, playerId := 1, acPower := 50, recordedAt := 0 }] ∧
    (saveAcSignupOcr
        { players := [{ id := 1, allianceId := 1, name := "Valorin" }],
          acEvents := [{ id := 1, allianceId := 1, weekStartDate := 0 }],
          acSignups := [{ acEventId := 1, playerId := 1, acPower := 100, recordedAt := 0 }],
          nextACEventId := 2 }
        1 0 { players := [{ name := some "Valorin", acPower := some 50 }] } 5).1.acSignups
      = [{ acEventId := 1, playerId := 1, acPower := 100, recordedAt := 0 }] := by
  exact ⟨by decide, by decide, by decide⟩

/-- Claim C8, amended: only `save_bear_event_ocr` returns full
created/updated/skipped counts (`scores_added` / `scores_updated` /
`scores_skipped`); the foundry signup/result, AC signup and contribution
snapshot routines return the event id and a count of created rows only —
an update and a skip produce the same counts. -/
theorem claim_C8_amended :
    (saveBearEventOcr
        { players := [{ id := 1, allianceId := 1, name := "Ayla" },
                      { id := 2, allianceId := 1, name := "Brok" },
                      { id := 3, allianceId := 1, name := "Cyn" }],
          bearEvents := [{ id := 1, allianceId := 1, trapId := 1, startedAt := 0 }],
          bearScores := [{ bearEventId := 1, playerId := 1, score := 50, recordedAt := 0 },
                         { bearEventId := 1, playerId := 2, score := 70, recordedAt := 0 }],
          nextBearEventId := 2 }
        1 1 0
        [{ name := some "Ayla", damagePoints := some 60 },
         { name := some "Brok", damagePoints := some 70 },
         { name := some "Cyn", damagePoints := some 30 }] 5).2 =
      { eventId := 1, scoresAdded := 1, scoresUpdated := 1, scoresSkipped := 1 } ∧
    (saveFoundrySignupOcr
        { players := [{ id := 1, allianceId := 1, name := "Valorin" }],
          foundryEvents := [{ id := 1, allianceId := 1, legionNumber := 1, eventDate := 0 }],
          foundrySignups := [{ foundryEventId := 1, playerId := 1, foundryPower := 9,
                               voted := false, recordedAt := 0 }],
          nextFoundryEventId := 2 }
        1 1 0 { players := [{ name := some "Valorin", status := some "join",
                              foundryPower := some 9 }] } 5).2 =
      { eventId := 1, signups := 0 } ∧
    (saveContributionSnapshotOcr
        { players := [{ id := 1, allianceId := 1, name := "Valorin" }],
          contributionSnapshots := [{ allianceId := 1, playerId := 1, weekStartDate := 0,
                                      snapshotDate := 0, contributionAmount := 3,
                                      recordedAt := 0 }] }
        1 0 0 [{ name := some "Valorin", contribution := some 4 }] 5).2 =
      { snapshots := 0 } := by
  exact ⟨by decide, by decide, by decide⟩

/-! ## Claim C9 — dispatch of the supported screenshot types -/

/-- Claim C9: evaluation of the dispatcher at the failing kinds.  The three
`_process_*` helpers for bear damage, AC signup and contribution call their
`save_*_ocr` function with a `screenshot_filename=` keyword argument that
the function does not declare, so every such dispatch raises `TypeError`
before the routine body runs; the generic handler reports
`success=False` with no rows saved — never the claimed `success=true`.
The foundry call sites do declare the parameter and succeed. -/
theorem claim_C9_bug :
    pyCallBindOk saveBearEventOcrSig 6 ["screenshot_filename"] = false ∧
    pyCallBindOk saveAcSignupOcrSig 5 ["screenshot_filename"] = false ∧
    pyCallBindOk saveContributionSnapshotOcrSig 6 ["screenshot_filename"] = false ∧
    pyCallBindOk saveFoundrySignupOcrSig 6 ["screenshot_filename"] = true ∧
    pyCallBindOk saveFoundryResultOcrSig 6 ["screenshot_filename"] = true ∧
    (∀ (db : DB) (allianceId : Nat) (trapId : Option Int) (players : List BearRow)
        (ts : Int),
      processScreenshot db allianceId "bear_damage" (.bearDamage trapId players) ts =
        (db, { stype := "bear_damage", success := false, recordsSaved := 0 })) ∧
    (∀ (db : DB) (allianceId : Nat) (data : ACSignupData) (ts : Int),
      processScreenshot db allianceId "ac_signup" (.acSignup data) ts =
        (db, { stype := "ac_signup", success := false, recordsSaved := 0 })) ∧
    (∀ (db : DB) (allianceId : Nat) (players : List ContribRow) (ts : Int),
      processScreenshot db allianceId "contribution" (.contribution players) ts =
        (db, { stype := "contribution", success := false, recordsSaved := 0 })) ∧
    (processScreenshot { players := [{ id := 1, allianceId := 1, name := "Valorin" }] }
        1 "foundry_signup"
        (.foundrySignup (some 1)
          { players := [{ name := some "Valorin", status := some "join",
                          foundryPower := some 9 }] }) 0).2.success = true := by
  have hbear : pyCallBindOk saveBearEventOcrSig 6 ["screenshot_filename"] = false := by
    decide
  have hac : pyCallBindOk saveAcSignupOcrSig 5 ["screenshot_filename"] = false := by decide
  have hcontrib : pyCallBindOk saveContributionSnapshotOcrSig 6 ["screenshot_filename"]
      = false := by decide
  refine ⟨hbear, hac, hcontrib, by decide, by decide, ?_, ?_, ?_, by decide⟩
  · intro db allianceId trapId players ts
    simp [processScreenshot, hbear]
  · intro db allianceId data ts
    simp [processScreenshot, hac]
  · intro db allianceId players ts
    simp [processScreenshot, hcontrib]

/-! ## Claim C10 — batch fault isolation in `upload_screenshots` -/

/-- Claim C10: an exception raised while processing one file of a batch never
aborts the batch.  In a 3-file batch where file 2 raises, files 1 and 3 are
still processed and reported with `success=true`, file 2 is reported with
`success=false`, and the batch summary counts 2 successes; in general every
file of a batch gets exactly one result entry, in order. -/
theorem claim_C10_isolation
    (proc : UploadFile → Except String ProcResult) (f1 f2 f3 : UploadFile)
    (r1 r3 : ProcResult) (e : String)
    (h1 : proc f1 = .ok r1) (h1s : r1.success = true)
    (h2 : proc f2 = .error e)
    (h3 : proc f3 = .ok r3) (h3s : r3.success = true) :
    (uploadScreenshots proc [f1, f2, f3]).results.map (·.success) =
      [true, false, true] ∧
    (uploadScreenshots proc [f1, f2, f3]).successful = 2 ∧
    ∀ files : List UploadFile,
      (uploadScreenshots proc files).results.length = files.length ∧
      (uploadScreenshots proc files).results.map (·.filename) = files.map (·.filename) := by
  refine ⟨?_, ?_, ?_⟩
  · simp [uploadScreenshots, h1, h2, h3, h1s, h3s]
  · simp [uploadScreenshots, h1, h2, h3, h1s, h3s]
  · intro files
    constructor
    · simp [uploadScreenshots]
    · induction files with
      | nil => rfl
      | cons f fs ih =>
        simp only [uploadScreenshots, List.map_cons] at ih ⊢
        cases hf : proc f <;> simp [hf, ih]

/-- Claim C10, witness: the theorem applied to a concrete 3-file batch whose
second file raises. -/
theorem claim_C10_witness :
    (uploadScreenshots
        (fun f => if f.filename == "b" then .error "boom"
          else .ok { stype := "contribution", success := true, recordsSaved := 1 })
        [{ filename := "a" }, { filename := "b" }, { filename := "c" }]).results.map
      (·.success) = [true, false, true] ∧
    (uploadScreenshots
        (fun f => if f.filename == "b" then .error "boom"
          else .ok { stype := "contribution", success := true, recordsSaved := 1 })
        [{ filename := "a" }, { filename := "b" }, { filename := "c" }]).successful = 2 := by
  have h := claim_C10_isolation
    (fun f => if f.filename == "b" then .error "boom"
      else .ok { stype := "contribution", success := true, recordsSaved := 1 })
    { filename := "a" } { filename := "b" } { filename := "c" }
    { stype := "contribution", success := true, recordsSaved := 1 }
    { stype := "contribution", success := true, recordsSaved := 1 }
    "boom" (by decide) (by decide) (by decide) (by decide) (by decide)
  exact ⟨h.1, h.2.1⟩

/-! ## Claim C3 — time-window grouping of bear events -/

/-- Claim C3: `find_or_create_bear_event` groups an observation with the most
recent existing event of the same `(alliance_id, trap_id)` whose
`started_at` lies within ±24 hours, pulling `started_at` backward when the
new observation is earlier.  For every alliance, trap and time `t`:
observations at `t` and `t+23h` (in either order) leave exactly one event
with `started_at = t`; observations at `t` and `t+25h` leave two distinct
events; and with two in-window candidates the most recent one is matched
(first match in `started_at DESC` order) and pulled backward. -/
theorem claim_C3_grouping (aid : Nat) (trap t : Int) :
    ((findOrCreateBearEvent (findOrCreateBearEvent {} aid trap t).1 aid trap
        (t + 23 * microsPerHour)).1.bearEvents =
      [{ id := 1, allianceId := aid, trapId := trap, startedAt := t }]) ∧
    ((findOrCreateBearEvent (findOrCreateBearEvent {} aid trap (t + 23 * microsPerHour)).1
        aid trap t).1.bearEvents =
      [{ id := 1, allianceId := aid, trapId := trap, startedAt := t }]) ∧
    ((findOrCreateBearEvent (findOrCreateBearEvent {} aid trap t).1 aid trap
        (t + 25 * microsPerHour)).1.bearEvents =
      [{ id := 1, allianceId := aid, trapId := trap, startedAt := t },
       { id := 2, allianceId := aid, trapId := trap,
         startedAt := t + 25 * microsPerHour }]) ∧
    ((findOrCreateBearEvent
        { bearEvents := [{ id := 1, allianceId := aid, trapId := trap, startedAt := t },
                         { id := 2, allianceId := aid, trapId := trap,
                           startedAt := t + microsPerHour }],
          nextBearEventId := 3 } aid trap (t - microsPerHour)).1.bearEvents =
      [{ id := 1, allianceId := aid, trapId := trap, startedAt := t },
       { id := 2, allianceId := aid, trapId := trap,
         startedAt := t - microsPerHour }]) := by
  have hm : microsPerHour = 3600000000 := rfl
  have hw : EVENT_GROUPING_WINDOW_HOURS = (24 : Int) := rfl
  have hcreate : ∀ s : Int, findOrCreateBearEvent {} aid trap s =
      ({ bearEvents := [{ id := 1, allianceId := aid, trapId := trap, startedAt := s }],
         nextBearEventId := 2 },
       { id := 1, allianceId := aid, trapId := trap, startedAt := s }) := by
    intro s
    simp [findOrCreateBearEvent, latestMatch]
  refine ⟨?_, ?_, ?_, ?_⟩
  · rw [hcreate t]
    simp only [findOrCreateBearEvent, latestMatch]
    have hc1 : (t + 23 * microsPerHour - EVENT_GROUPING_WINDOW_HOURS * microsPerHour
        ≤ t) := by rw [hm, hw]; omega
    have hc2 : (t ≤ t + 23 * microsPerHour + EVENT_GROUPING_WINDOW_HOURS * microsPerHour)
        := by rw [hm, hw]; omega
    have hc3 : ¬ (t + 23 * microsPerHour < t) := by rw [hm]; omega
    simp [hc1, hc2, hc3]
  · rw [hcreate (t + 23 * microsPerHour)]
    simp only [findOrCreateBearEvent, latestMatch]
    have hc1 : (t - EVENT_GROUPING_WINDOW_HOURS * microsPerHour ≤ t + 23 * microsPerHour)
        := by rw [hm, hw]; omega
    have hc2 : (t + 23 * microsPerHour ≤ t + EVENT_GROUPING_WINDOW_HOURS * microsPerHour)
        := by rw [hm, hw]; omega
    have hc3 : (t < t + 23 * microsPerHour) := by rw [hm]; omega
    simp [hc1, hc2, hc3]
  · rw [hcreate t]
    simp only [findOrCreateBearEvent, latestMatch]
    have hc1 : ¬ (t + 25 * microsPerHour - EVENT_GROUPING_WINDOW_HOURS * microsPerHour
        ≤ t) := by rw [hm, hw]; omega
    simp [hc1]
  · simp only [findOrCreateBearEvent, latestMatch]
    have hc1 : (t - microsPerHour - EVENT_GROUPING_WINDOW_HOURS * microsPerHour ≤ t) := by
      rw [hm, hw]; omega
    have hc2 : (t ≤ t - microsPerHour + EVENT_GROUPING_WINDOW_HOURS * microsPerHour) := by
      rw [hm, hw]; omega
    have hc3 : (t - microsPerHour - EVENT_GROUPING_WINDOW_HOURS * microsPerHour
        ≤ t + microsPerHour) := by rw [hm, hw]; omega
    have hc4 : (t + microsPerHour ≤ t - microsPerHour
        + EVENT_GROUPING_WINDOW_HOURS * microsPerHour) := by rw [hm, hw]; omega
    have hc5 : (t < t + microsPerHour) := by rw [hm]; omega
    have hc6 : (t - microsPerHour < t + microsPerHour) := by rw [hm]; omega
    simp [hc1, hc2, hc3, hc4, hc5, hc6]

/-! ## Claim C2 — bear score improve-on-write monotonicity -/

/-- Claim C2: for an existing `BearScore` row of a `(bear_event_id,
player_id)` pair, a later `save_bear_event_ocr` call leaves the stored score
at `max(old, new)` — it never decreases, a lower score leaves it unchanged
(whatever the ranks do), and a strictly higher score updates it to the new
value. -/
theorem claim_C2_monotonicity (aid : Nat) (trap old new t rec1 rec2 : Int)
    (rank0 rankNew : Option Int) :
    ((saveBearEventOcr
        { players := [{ id := 1, allianceId := aid, name := "Ayla" }],
          bearEvents := [{ id := 1, allianceId := aid, trapId := trap, startedAt := t }],
          bearScores := [{ bearEventId := 1, playerId := 1, score := old, rank := rank0,
                           recordedAt := rec1 }],
          nextPlayerId := 2, nextBearEventId := 2 }
        aid trap t [{ name := some "Ayla", damagePoints := some new, rank := rankNew }]
        rec2).1.bearScores.map (·.score) = [max old new]) ∧
    (old < new →
      (saveBearEventOcr
        { players := [{ id := 1, allianceId := aid, name := "Ayla" }],
          bearEvents := [{ id := 1, allianceId := aid, trapId := trap, startedAt := t }],
          bearScores := [{ bearEventId := 1, playerId := 1, score := old, rank := rank0,
                           recordedAt := rec1 }],
          nextPlayerId := 2, nextBearEventId := 2 }
        aid trap t [{ name := some "Ayla", damagePoints := some new, rank := rankNew }]
        rec2).1.bearScores.map (·.score) = [new]) ∧
    (new ≤ old →
      (saveBearEventOcr
        { players := [{ id := 1, allianceId := aid, name := "Ayla" }],
          bearEvents := [{ id := 1, allianceId := aid, trapId := trap, startedAt := t }],
          bearScores := [{ bearEventId := 1, playerId := 1, score := old, rank := rank0,
                           recordedAt := rec1 }],
          nextPlayerId := 2, nextBearEventId := 2 }
        aid trap t [{ name := some "Ayla", damagePoints := some new, rank := rankNew }]
        rec2).1.bearScores.map (·.score) = [old]) := by
  have hmain : (saveBearEventOcr
      { players := [{ id := 1, allianceId := aid, name := "Ayla" }],
        bearEvents := [{ id := 1, allianceId := aid, trapId := trap, startedAt := t }],
        bearScores := [{ bearEventId := 1, playerId := 1, score := old, rank := rank0,
                         recordedAt := rec1 }],
        nextPlayerId := 2, nextBearEventId := 2 }
      aid trap t [{ name := some "Ayla", damagePoints := some new, rank := rankNew }]
      rec2).1.bearScores.map (·.score) = [max old new] := by
    have hm : microsPerHour = 3600000000 := rfl
    have hw : EVENT_GROUPING_WINDOW_HOURS = (24 : Int) := rfl
    have hc1 : (t - EVENT_GROUPING_WINDOW_HOURS * microsPerHour ≤ t) := by
      rw [hm, hw]; omega
    have hc2 : (t ≤ t + EVENT_GROUPING_WINDOW_HOURS * microsPerHour) := by
      rw [hm, hw]; omega
    have hc3 : ¬ (t < t) := by omega
    simp only [saveBearEventOcr, findOrCreateBearEvent, latestMatch, bearScoreStep]
    have hst : stripTag "Ayla" = "Ayla" := by decide
    simp [hc1, hc2, hc3, hst, findIdxVal]
    by_cases hlt : old < new
    · simp [hlt, hst, bearScoreStep, findIdxVal, max_comm]
      split <;> rfl
    · by_cases hrk : rankTruthy rankNew = true ∧ rankNew ≠ rank0
      · simp [hlt, hrk, hst, bearScoreStep, findIdxVal, max_comm]
        split <;> rfl
      · simp [hlt, hrk, hst, bearScoreStep, findIdxVal, max_eq_left (not_lt.mp hlt)]
  refine ⟨hmain, fun hlt => ?_, fun hle => ?_⟩
  · rw [hmain, max_eq_right hlt.le]
  · rw [hmain, max_eq_left hle]

/-- Claim C2, witness: the theorem applied at score 50 then 100 (updates to
100) and at score 100 then 50 (stays 100). -/
theorem claim_C2_witness :
    ((saveBearEventOcr
        { players := [{ id := 1, allianceId := 1, name := "Ayla" }],
          bearEvents := [{ id := 1, allianceId := 1, trapId := 1, startedAt := 0 }],
          bearScores := [{ bearEventId := 1, playerId := 1, score := 50, rank := none,
                           recordedAt := 0 }],
          nextPlayerId := 2, nextBearEventId := 2 }
        1 1 0 [{ name := some "Ayla", damagePoints := some 100, rank := none }]
        7).1.bearScores.map (·.score) = [100]) ∧
    ((saveBearEventOcr
        { players := [{ id := 1, allianceId := 1, name := "Ayla" }],
          bearEvents := [{ id := 1, allianceId := 1, trapId := 1, startedAt := 0 }],
          bearScores := [{ bearEventId := 1, playerId := 1, score := 100, rank := none,
                           recordedAt := 0 }],
          nextPlayerId := 2, nextBearEventId := 2 }
        1 1 0 [{ name := some "Ayla", damagePoints := some 50, rank := none }]
        7).1.bearScores.map (·.score) = [100]) := by
  constructor
  · exact (claim_C2_monotonicity 1 1 50 100 0 0 7 none none).2.1 (by omega)
  · exact (claim_C2_monotonicity 1 1 100 50 0 0 7 none none).2.2 (by omega)

/-! ## Idempotence machinery: contribution snapshots -/

/-- Outcome of the player-resolution prefix of one `contributionStep`
(skip reasons collapsed to `none`); a proof-layer abbreviation, not a source
function. -/
def contribResolve (players : List Player) (allianceId : Nat) (row : ContribRow) :
    Option Nat :=
  match row.name with
  | none => none
  | some name =>
    if name == "" then none
    else (players.find?
      (fun p => p.allianceId == allianceId && p.name == stripTag name)).map (·.id)

/-- The `(alliance, player, week_start, snapshot_date)` key already has a
row. -/
def contribKeyPresent (db : DB) (allianceId pid : Nat) (weekStart snapshotDate : Int) :
    Bool :=
  db.contributionSnapshots.any (fun s => s.allianceId == allianceId &&
    s.playerId == pid && s.weekStartDate == weekStart && s.snapshotDate == snapshotDate)

theorem contributionStep_players (allianceId : Nat) (weekStart snapshotDate recordedAt : Int)
    (acc : DB × Nat) (row : ContribRow) :
    (contributionStep allianceId weekStart snapshotDate recordedAt acc row).1.players =
      acc.1.players := by
  unfold contributionStep
  dsimp only
  split
  · rfl
  · split
    · rfl
    · split
      · rfl
      · split
        · rfl
        · rfl

theorem contributionStep_events (allianceId : Nat) (weekStart snapshotDate recordedAt : Int)
    (acc : DB × Nat) (row : ContribRow) :
    (contributionStep allianceId weekStart snapshotDate recordedAt acc row).1.foundryEvents =
      acc.1.foundryEvents := by
  unfold contributionStep
  dsimp only
  split
  · rfl
  · split
    · rfl
    · split
      · rfl
      · split
        · rfl
        · rfl

theorem contributionStep_eq (allianceId : Nat) (weekStart snapshotDate recordedAt : Int)
    (acc : DB × Nat) (row : ContribRow) :
    contributionStep allianceId weekStart snapshotDate recordedAt acc row =
      match contribResolve acc.1.players allianceId row with
      | none => acc
      | some pid =>
        if contribKeyPresent acc.1 allianceId pid weekStart snapshotDate then acc
        else ({ acc.1 with contributionSnapshots := acc.1.contributionSnapshots ++
            [{ allianceId := allianceId, playerId := pid, weekStartDate := weekStart,
               snapshotDate := snapshotDate, contributionAmount := row.contribution.getD 0,
               rank := row.rank, recordedAt := recordedAt }] }, acc.2 + 1) := by
  unfold contributionStep contribResolve contribKeyPresent
  cases hx : row.name with
  | none => rfl
  | some name =>
    dsimp only
    by_cases hempty : (name == "") = true
    · simp only [hempty, if_pos]
    · simp only [hempty, if_neg, Bool.false_eq_true, not_false_iff]
      cases hf : List.find? (fun p => p.allianceId == allianceId && p.name == stripTag name)
          acc.1.players with
      | none => rfl
      | some player => dsimp only [Option.map_some']

theorem contributionStep_skip_unresolved (allianceId : Nat)
    (weekStart snapshotDate recordedAt : Int) (acc : DB × Nat) (row : ContribRow)
    (h : contribResolve acc.1.players allianceId row = none) :
    contributionStep allianceId weekStart snapshotDate recordedAt acc row = acc := by
  rw [contributionStep_eq, h]

theorem contributionStep_skip_present (allianceId : Nat)
    (weekStart snapshotDate recordedAt : Int) (acc : DB × Nat) (row : ContribRow)
    (pid : Nat) (h : contribResolve acc.1.players allianceId row = some pid)
    (hkey : contribKeyPresent acc.1 allianceId pid weekStart snapshotDate = true) :
    contributionStep allianceId weekStart snapshotDate recordedAt acc row = acc := by
  rw [contributionStep_eq, h]
  simp [hkey]

theorem contributionStep_establishes (allianceId : Nat)
    (weekStart snapshotDate recordedAt : Int) (acc : DB × Nat) (row : ContribRow)
    (pid : Nat) (h : contribResolve acc.1.players allianceId row = some pid) :
    contribKeyPresent
      (contributionStep allianceId weekStart snapshotDate recordedAt acc row).1
      allianceId pid weekStart snapshotDate = true := by
  rw [contributionStep_eq, h]
  by_cases hkey : contribKeyPresent acc.1 allianceId pid weekStart snapshotDate = true
  · simp only [hkey, if_pos]
  · simp only [Bool.not_eq_true] at hkey
    simp only [hkey, Bool.false_eq_true, if_neg, not_false_iff]
    unfold contribKeyPresent
    simp [List.any_append]

theorem contributionStep_mono (allianceId : Nat)
    (weekStart snapshotDate recordedAt : Int) (acc : DB × Nat) (row : ContribRow)
    (pid : Nat)
    (h : contribKeyPresent acc.1 allianceId pid weekStart snapshotDate = true) :
    contribKeyPresent
      (contributionStep allianceId weekStart snapshotDate recordedAt acc row).1
      allianceId pid weekStart snapshotDate = true := by
  rw [contributionStep_eq]
  cases hres : contribResolve acc.1.players allianceId row with
  | none => exact h
  | some pid2 =>
    dsimp only
    split
    · exact h
    · unfold contribKeyPresent at h ⊢
      simp only [List.any_append, Bool.or_eq_true]
      exact Or.inl h

theorem contribFold_players (allianceId : Nat) (weekStart snapshotDate recordedAt : Int)
    (rows : List ContribRow) (acc : DB × Nat) :
    (rows.foldl (contributionStep allianceId weekStart snapshotDate recordedAt) acc).1.players
      = acc.1.players := by
  induction rows generalizing acc with
  | nil => rfl
  | cons row rest ih =>
    rw [List.foldl_cons, ih, contributionStep_players]

theorem contribFold_mono (allianceId : Nat) (weekStart snapshotDate recordedAt : Int)
    (rows : List ContribRow) (acc : DB × Nat) (pid : Nat)
    (h : contribKeyPresent acc.1 allianceId pid weekStart snapshotDate = true) :
    contribKeyPresent
      (rows.foldl (contributionStep allianceId weekStart snapshotDate recordedAt) acc).1
      allianceId pid weekStart snapshotDate = true := by
  induction rows generalizing acc with
  | nil => exact h
  | cons row rest ih =>
    rw [List.foldl_cons]
    exact ih _ (contributionStep_mono _ _ _ _ _ _ _ h)

theorem contribFold_establishes (allianceId : Nat)
    (weekStart snapshotDate recordedAt : Int) (rows : List ContribRow) (acc : DB × Nat)
    (row : ContribRow) (pid : Nat) (hrow : row ∈ rows)
    (h : contribResolve acc.1.players allianceId row = some pid) :
    contribKeyPresent
      (rows.foldl (contributionStep allianceId weekStart snapshotDate recordedAt) acc).1
      allianceId pid weekStart snapshotDate = true := by
  induction rows generalizing acc with
  | nil => cases hrow
  | cons hd rest ih =>
    rw [List.foldl_cons]
    rcases List.mem_cons.mp hrow with heq | hmem
    · subst heq
      exact contribFold_mono _ _ _ _ _ _ _
        (contributionStep_establishes _ _ _ _ _ _ _ h)
    · exact ih _ hmem (by rw [contributionStep_players]; exact h)

theorem contribFold_idem (allianceId : Nat) (weekStart snapshotDate recordedAt : Int)
    (rows : List ContribRow) (acc : DB × Nat)
    (hall : ∀ row ∈ rows, ∀ pid,
      contribResolve acc.1.players allianceId row = some pid →
      contribKeyPresent acc.1 allianceId pid weekStart snapshotDate = true) :
    rows.foldl (contributionStep allianceId weekStart snapshotDate recordedAt) acc = acc := by
  induction rows with
  | nil => rfl
  | cons hd rest ih =>
    rw [List.foldl_cons]
    have hstep : contributionStep allianceId weekStart snapshotDate recordedAt acc hd
        = acc := by
      cases hres : contribResolve acc.1.players allianceId hd with
      | none => exact contributionStep_skip_unresolved _ _ _ _ _ _ hres
      | some pid =>
        exact contributionStep_skip_present _ _ _ _ _ _ pid hres
          (hall hd (List.mem_cons_self _ _) pid hres)
    rw [hstep]
    exact ih (fun row hrow pid hres => hall row (List.mem_cons_of_mem _ hrow) pid hres)

/-- Flooring to midnight is idempotent. -/
theorem floorToMidnightUTC_idem (t : Int) :
    floorToMidnightUTC (floorToMidnightUTC t) = floorToMidnightUTC t := by
  unfold floorToMidnightUTC
  have h : (t - t.emod microsPerDay).emod microsPerDay = 0 := by
    show (t - t % microsPerDay) % microsPerDay = 0
    rw [Int.sub_emod, Int.emod_emod_of_dvd t (dvd_refl microsPerDay)]
    simp
  omega

/-- Second submission of the same rows with dates on the same UTC days is a
pure skip: no state change and zero created snapshots. -/
theorem saveContribution_second_skip (db : DB) (allianceId : Nat)
    (w1 s1 w2 s2 : Int) (rows : List ContribRow) (r1 r2 : Int)
    (hw : floorToMidnightUTC w2 = floorToMidnightUTC w1)
    (hs : floorToMidnightUTC s2 = floorToMidnightUTC s1) :
    saveContributionSnapshotOcr
      (saveContributionSnapshotOcr db allianceId w1 s1 rows r1).1 allianceId w2 s2 rows r2
      = ((saveContributionSnapshotOcr db allianceId w1 s1 rows r1).1, { snapshots := 0 }) := by
  unfold saveContributionSnapshotOcr
  simp only [hw, hs]
  have hfold : rows.foldl
      (contributionStep allianceId (floorToMidnightUTC w1) (floorToMidnightUTC s1) r2)
      ((rows.foldl
        (contributionStep allianceId (floorToMidnightUTC w1) (floorToMidnightUTC s1) r1)
        (db, 0)).1, 0) =
      ((rows.foldl
        (contributionStep allianceId (floorToMidnightUTC w1) (floorToMidnightUTC s1) r1)
        (db, 0)).1, 0) := by
    apply contribFold_idem
    intro row hrow pid hres
    have hplayers : (rows.foldl
        (contributionStep allianceId (floorToMidnightUTC w1) (floorToMidnightUTC s1) r1)
        (db, 0)).1.players = db.players := contribFold_players _ _ _ _ _ _
    have hres' : contribResolve db.players allianceId row = some pid := by
      rw [← hplayers]
      exact hres
    exact contribFold_establishes _ _ _ _ _ _ _ pid hrow hres'
  rw [hfold]

theorem contribFold_new_keys (allianceId : Nat) (weekStart snapshotDate recordedAt : Int)
    (rows : List ContribRow) (acc : DB × Nat) :
    ∀ snap ∈ (rows.foldl (contributionStep allianceId weekStart snapshotDate recordedAt)
        acc).1.contributionSnapshots,
      snap ∈ acc.1.contributionSnapshots ∨
        (snap.weekStartDate = weekStart ∧ snap.snapshotDate = snapshotDate) := by
  induction rows generalizing acc with
  | nil => exact fun snap h => Or.inl h
  | cons hd rest ih =>
    intro snap hsnap
    rw [List.foldl_cons] at hsnap
    rcases ih _ snap hsnap with hmem | hkeys
    · rw [contributionStep_eq] at hmem
      cases hres : contribResolve acc.1.players allianceId hd with
      | none => rw [hres] at hmem; exact Or.inl hmem
      | some pid =>
        rw [hres] at hmem
        dsimp only at hmem
        by_cases hkey : contribKeyPresent acc.1 allianceId pid weekStart snapshotDate = true
        · rw [if_pos hkey] at hmem
          exact Or.inl hmem
        · rw [if_neg hkey] at hmem
          dsimp only at hmem
          rcases List.mem_append.mp hmem with hl | hr
          · exact Or.inl hl
          · rcases List.mem_singleton.mp hr with rfl
            exact Or.inr ⟨rfl, rfl⟩
    · exact Or.inr hkeys

/-! ## Claim C4 — contribution date normalization -/

/-- Claim C4: `save_contribution_snapshot_ocr` floors `week_start_date` and
`snapshot_date` to midnight UTC before comparison and storage, so two
submissions whose dates fall on the same UTC calendar days collapse to the
same key and the second submission is a pure skip that inserts no row; every
row the first submission stores carries the normalized dates. -/
theorem claim_C4_normalization (db : DB) (allianceId : Nat) (w1 s1 w2 s2 r1 r2 : Int)
    (rows : List ContribRow)
    (hw : floorToMidnightUTC w2 = floorToMidnightUTC w1)
    (hs : floorToMidnightUTC s2 = floorToMidnightUTC s1) :
    (saveContributionSnapshotOcr (saveContributionSnapshotOcr db allianceId w1 s1 rows r1).1
        allianceId w2 s2 rows r2 =
      ((saveContributionSnapshotOcr db allianceId w1 s1 rows r1).1, { snapshots := 0 })) ∧
    ∀ snap ∈
      (saveContributionSnapshotOcr db allianceId w1 s1 rows r1).1.contributionSnapshots,
      snap ∈ db.contributionSnapshots ∨
        (snap.weekStartDate = floorToMidnightUTC w1 ∧
         snap.snapshotDate = floorToMidnightUTC s1) := by
  constructor
  · exact saveContribution_second_skip db allianceId w1 s1 w2 s2 rows r1 r2 hw hs
  · unfold saveContributionSnapshotOcr
    exact contribFold_new_keys allianceId (floorToMidnightUTC w1) (floorToMidnightUTC s1)
      r1 rows (db, 0)

/-- Claim C4, witness: the theorem applied to the spec's example — week start
`2025-11-17T08:00:00Z` on the first upload and `2025-11-17T23:00:00Z` on the
second (1763366400000000 and 1763420400000000 microseconds since the epoch,
both flooring to the same UTC midnight). -/
theorem claim_C4_witness :
    saveContributionSnapshotOcr
      (saveContributionSnapshotOcr
        { players := [{ id := 1, allianceId := 1, name := "Valorin" }] }
        1 1763366400000000 1763366400000000
        [{ name := some "Valorin", contribution := some 5 }] 0).1
      1 1763420400000000 1763420400000000
      [{ name := some "Valorin", contribution := some 5 }] 9 =
      ((saveContributionSnapshotOcr
        { players := [{ id := 1, allianceId := 1, name := "Valorin" }] }
        1 1763366400000000 1763366400000000
        [{ name := some "Valorin", contribution := some 5 }] 0).1,
       { snapshots := 0 }) := by
  exact (claim_C4_normalization
    { players := [{ id := 1, allianceId := 1, name := "Valorin" }] }
    1 1763366400000000 1763366400000000 1763420400000000 1763420400000000 0 9
    [{ name := some "Valorin", contribution := some 5 }]
    (by decide) (by decide)).1

/-! ## Idempotence machinery: foundry events -/

theorem applyFoundryStats_idem (ttp mp ap : Option Int) (e : FoundryEvent) :
    applyFoundryStats ttp mp ap (applyFoundryStats ttp mp ap e) =
      applyFoundryStats ttp mp ap e := by
  cases ttp <;> cases mp <;> cases ap <;> rfl

theorem applyFoundryStats_key (allianceId : Nat) (legionNumber eventDate : Int)
    (ttp mp ap : Option Int) (e : FoundryEvent) :
    foundryKeyMatch allianceId legionNumber eventDate (applyFoundryStats ttp mp ap e) =
      foundryKeyMatch allianceId legionNumber eventDate e := by
  cases ttp <;> cases mp <;> cases ap <;> rfl

theorem applyFoundryStats_fresh (i allianceId : Nat) (legionNumber eventDate : Int)
    (ttp mp ap : Option Int) :
    applyFoundryStats ttp mp ap
      { id := i, allianceId := allianceId, legionNumber := legionNumber,
        eventDate := eventDate, totalTroopPower := ttp, maxParticipants := mp,
        actualParticipants := ap } =
      { id := i, allianceId := allianceId, legionNumber := legionNumber,
        eventDate := eventDate, totalTroopPower := ttp, maxParticipants := mp,
        actualParticipants := ap } := by
  cases ttp <;> cases mp <;> cases ap <;> rfl

theorem findOrCreateFoundryEvent_players (db : DB) (allianceId : Nat)
    (legionNumber eventDate : Int) (ttp mp ap : Option Int) :
    (findOrCreateFoundryEvent db allianceId legionNumber eventDate ttp mp ap).1.players =
      db.players := by
  unfold findOrCreateFoundryEvent
  cases findIdxVal (foundryKeyMatch allianceId legionNumber eventDate) db.foundryEvents with
  | none => rfl
  | some iv => rfl

theorem findOrCreateFoundryEvent_signups (db : DB) (allianceId : Nat)
    (legionNumber eventDate : Int) (ttp mp ap : Option Int) :
    (findOrCreateFoundryEvent db allianceId legionNumber eventDate ttp mp
        ap).1.foundrySignups = db.foundrySignups := by
  unfold findOrCreateFoundryEvent
  cases findIdxVal (foundryKeyMatch allianceId legionNumber eventDate) db.foundryEvents with
  | none => rfl
  | some iv => rfl

theorem findOrCreateFoundryEvent_results (db : DB) (allianceId : Nat)
    (legionNumber eventDate : Int) (ttp mp ap : Option Int) :
    (findOrCreateFoundryEvent db allianceId legionNumber eventDate ttp mp
        ap).1.foundryResults = db.foundryResults := by
  unfold findOrCreateFoundryEvent
  cases findIdxVal (foundryKeyMatch allianceId legionNumber eventDate) db.foundryEvents with
  | none => rfl
  | some iv => rfl

/-- Re-running `find_or_create_foundry_event` with the same key and stats on
any state whose `foundry_events` table is the output table returns the same
event and leaves the state untouched. -/
theorem findOrCreateFoundryEvent_stable (db db2 : DB) (allianceId : Nat)
    (legionNumber eventDate : Int) (ttp mp ap : Option Int)
    (h2 : db2.foundryEvents =
      (findOrCreateFoundryEvent db allianceId legionNumber eventDate ttp mp
        ap).1.foundryEvents) :
    findOrCreateFoundryEvent db2 allianceId legionNumber eventDate ttp mp ap =
      (db2, (findOrCreateFoundryEvent db allianceId legionNumber eventDate ttp mp ap).2) := by
  unfold findOrCreateFoundryEvent at h2 ⊢
  cases hfind : findIdxVal (foundryKeyMatch allianceId legionNumber eventDate)
      db.foundryEvents with
  | none =>
    rw [hfind] at h2
    dsimp only at h2 ⊢
    have hkey : foundryKeyMatch allianceId legionNumber eventDate
        { id := db.nextFoundryEventId, allianceId := allianceId,
          legionNumber := legionNumber, eventDate := eventDate,
          totalTroopPower := ttp, maxParticipants := mp, actualParticipants := ap }
        = true := by
      simp [foundryKeyMatch]
    have hfind2 := findIdxVal_append_new _ db.foundryEvents _ hfind hkey
    rw [← h2] at hfind2
    rw [hfind2]
    dsimp only
    rw [applyFoundryStats_fresh]
    have hset : db2.foundryEvents.set db.foundryEvents.length
        { id := db.nextFoundryEventId, allianceId := allianceId,
          legionNumber := legionNumber, eventDate := eventDate,
          totalTroopPower := ttp, maxParticipants := mp, actualParticipants := ap }
        = db2.foundryEvents := by
      apply list_set_self
      rw [h2, List.get?_eq_getElem?]
      exact List.getElem?_concat_length _ _
    rw [hset]
  | some iv =>
    rw [hfind] at h2
    dsimp only at h2 ⊢
    obtain ⟨hget, hp⟩ := findIdxVal_some _ _ _ _ hfind
    have hkey3 : foundryKeyMatch allianceId legionNumber eventDate
        (applyFoundryStats ttp mp ap iv.2) = true := by
      rw [applyFoundryStats_key]
      exact hp
    have hfind2 := findIdxVal_set_found _ db.foundryEvents iv.1 iv.2 _ hfind hkey3
    rw [← h2] at hfind2
    rw [hfind2]
    dsimp only
    rw [applyFoundryStats_idem, h2, List.set_set, ← h2]

/-! ## Idempotence machinery: foundry signups -/

/-- Outcome of the row-skipping and player-resolution prefix of one
`foundrySignupStep` (proof-layer abbreviation). -/
def foundrySignupResolve (players : List Player) (allianceId : Nat)
    (row : FoundrySignupRow) : Option Nat :=
  match row.name with
  | none => none
  | some name =>
    if name == "" then none
    else if row.status != some "join" then none
    else (findPlayerWithFuzzyFallback players allianceId (stripTag name)).map (·.id)

/-- A signup row for `(event, player)` already exists. -/
def foundrySignupKeyPresent (db : DB) (eventId pid : Nat) : Bool :=
  db.foundrySignups.any (fun s => s.foundryEventId == eventId && s.playerId == pid)

theorem foundrySignupStep_eq (allianceId eventId : Nat) (recordedAt : Int)
    (acc : DB × Nat) (row : FoundrySignupRow) :
    foundrySignupStep allianceId eventId recordedAt acc row =
      match foundrySignupResolve acc.1.players allianceId row with
      | none => acc
      | some pid =>
        if foundrySignupKeyPresent acc.1 eventId pid then acc
        else ({ acc.1 with foundrySignups := acc.1.foundrySignups ++
            [{ foundryEventId := eventId, playerId := pid,
               foundryPower := row.foundryPower.getD 0, voted := row.voted.getD false,
               recordedAt := recordedAt }] }, acc.2 + 1) := by
  unfold foundrySignupStep foundrySignupResolve foundrySignupKeyPresent addFoundrySignup
  cases hx : row.name with
  | none => rfl
  | some name =>
    dsimp only
    by_cases hempty : (name == "") = true
    · simp only [hempty, if_pos]
    · simp only [hempty, if_neg, Bool.false_eq_true, not_false_iff]
      by_cases hstatus : (row.status != some "join") = true
      · simp only [hstatus, if_pos]
      · simp only [hstatus, if_neg, Bool.false_eq_true, not_false_iff]
        cases hf : findPlayerWithFuzzyFallback acc.1.players allianceId (stripTag name) with
        | none => rfl
        | some player =>
          dsimp only [Option.map_some']
          by_cases hkey : (acc.1.foundrySignups.any
              (fun s => s.foundryEventId == eventId && s.playerId == player.id)) = true
          · simp only [hkey, if_pos]
            rfl
          · simp only [hkey, if_neg, Bool.false_eq_true, not_false_iff]
            rfl

theorem foundrySignupStep_players (allianceId eventId : Nat) (recordedAt : Int)
    (acc : DB × Nat) (row : FoundrySignupRow) :
    (foundrySignupStep allianceId eventId recordedAt acc row).1.players = acc.1.players := by
  rw [foundrySignupStep_eq]
  cases foundrySignupResolve acc.1.players allianceId row with
  | none => rfl
  | some pid =>
    dsimp only
    split
    · rfl
    · rfl

theorem foundrySignupStep_events (allianceId eventId : Nat) (recordedAt : Int)
    (acc : DB × Nat) (row : FoundrySignupRow) :
    (foundrySignupStep allianceId eventId recordedAt acc row).1.foundryEvents =
      acc.1.foundryEvents := by
  rw [foundrySignupStep_eq]
  cases foundrySignupResolve acc.1.players allianceId row with
  | none => rfl
  | some pid =>
    dsimp only
    split
    · rfl
    · rfl

theorem foundrySignupStep_skip_unresolved (allianceId eventId : Nat) (recordedAt : Int)
    (acc : DB × Nat) (row : FoundrySignupRow)
    (h : foundrySignupResolve acc.1.players allianceId row = none) :
    foundrySignupStep allianceId eventId recordedAt acc row = acc := by
  rw [foundrySignupStep_eq, h]

theorem foundrySignupStep_skip_present (allianceId eventId : Nat) (recordedAt : Int)
    (acc : DB × Nat) (row : FoundrySignupRow) (pid : Nat)
    (h : foundrySignupResolve acc.1.players allianceId row = some pid)
    (hkey : foundrySignupKeyPresent acc.1 eventId pid = true) :
    foundrySignupStep allianceId eventId recordedAt acc row = acc := by
  rw [foundrySignupStep_eq, h]
  simp [hkey]

theorem foundrySignupStep_establishes (allianceId eventId : Nat) (recordedAt : Int)
    (acc : DB × Nat) (row : FoundrySignupRow) (pid : Nat)
    (h : foundrySignupResolve acc.1.players allianceId row = some pid) :
    foundrySignupKeyPresent (foundrySignupStep allianceId eventId recordedAt acc row).1
      eventId pid = true := by
  rw [foundrySignupStep_eq, h]
  by_cases hkey : foundrySignupKeyPresent acc.1 eventId pid = true
  · simp only [hkey, if_pos]
  · simp only [Bool.not_eq_true] at hkey
    simp only [hkey, Bool.false_eq_true, if_neg, not_false_iff]
    unfold foundrySignupKeyPresent
    simp [List.any_append]

theorem foundrySignupStep_mono (allianceId eventId : Nat) (recordedAt : Int)
    (acc : DB × Nat) (row : FoundrySignupRow) (pid : Nat)
    (h : foundrySignupKeyPresent acc.1 eventId pid = true) :
    foundrySignupKeyPresent (foundrySignupStep allianceId eventId recordedAt acc row).1
      eventId pid = true := by
  rw [foundrySignupStep_eq]
  cases foundrySignupResolve acc.1.players allianceId row with
  | none => exact h
  | some pid2 =>
    dsimp only
    split
    · exact h
    · unfold foundrySignupKeyPresent at h ⊢
      simp only [List.any_append, Bool.or_eq_true]
      exact Or.inl h

theorem foundrySignupFold_players (allianceId eventId : Nat) (recordedAt : Int)
    (rows : List FoundrySignupRow) (acc : DB × Nat) :
    (rows.foldl (foundrySignupStep allianceId eventId recordedAt) acc).1.players =
      acc.1.players := by
  induction rows generalizing acc with
  | nil => rfl
  | cons row rest ih => rw [List.foldl_cons, ih, foundrySignupStep_players]

theorem foundrySignupFold_events (allianceId eventId : Nat) (recordedAt : Int)
    (rows : List FoundrySignupRow) (acc : DB × Nat) :
    (rows.foldl (foundrySignupStep allianceId eventId recordedAt) acc).1.foundryEvents =
      acc.1.foundryEvents := by
  induction rows generalizing acc with
  | nil => rfl
  | cons row rest ih => rw [List.foldl_cons, ih, foundrySignupStep_events]

theorem foundrySignupFold_mono (allianceId eventId : Nat) (recordedAt : Int)
    (rows : List FoundrySignupRow) (acc : DB × Nat) (pid : Nat)
    (h : foundrySignupKeyPresent acc.1 eventId pid = true) :
    foundrySignupKeyPresent
      (rows.foldl (foundrySignupStep allianceId eventId recordedAt) acc).1 eventId pid
      = true := by
  induction rows generalizing acc with
  | nil => exact h
  | cons row rest ih =>
    rw [List.foldl_cons]
    exact ih _ (foundrySignupStep_mono _ _ _ _ _ _ h)

theorem foundrySignupFold_establishes (allianceId eventId : Nat) (recordedAt : Int)
    (rows : List FoundrySignupRow) (acc : DB × Nat) (row : FoundrySignupRow) (pid : Nat)
    (hrow : row ∈ rows)
    (h : foundrySignupResolve acc.1.players allianceId row = some pid) :
    foundrySignupKeyPresent
      (rows.foldl (foundrySignupStep allianceId eventId recordedAt) acc).1 eventId pid
      = true := by
  induction rows generalizing acc with
  | nil => cases hrow
  | cons hd rest ih =>
    rw [List.foldl_cons]
    rcases List.mem_cons.mp hrow with heq | hmem
    · subst heq
      exact foundrySignupFold_mono _ _ _ _ _ _
        (foundrySignupStep_establishes _ _ _ _ _ _ h)
    · exact ih _ hmem (by rw [foundrySignupStep_players]; exact h)

theorem foundrySignupFold_idem (allianceId eventId : Nat) (recordedAt : Int)
    (rows : List FoundrySignupRow) (acc : DB × Nat)
    (hall : ∀ row ∈ rows, ∀ pid,
      foundrySignupResolve acc.1.players allianceId row = some pid →
      foundrySignupKeyPresent acc.1 eventId pid = true) :
    rows.foldl (foundrySignupStep allianceId eventId recordedAt) acc = acc := by
  induction rows with
  | nil => rfl
  | cons hd rest ih =>
    rw [List.foldl_cons]
    have hstep : foundrySignupStep allianceId eventId recordedAt acc hd = acc := by
      cases hres : foundrySignupResolve acc.1.players allianceId hd with
      | none => exact foundrySignupStep_skip_unresolved _ _ _ _ _ hres
      | some pid =>
        exact foundrySignupStep_skip_present _ _ _ _ _ pid hres
          (hall hd (List.mem_cons_self _ _) pid hres)
    rw [hstep]
    exact ih (fun row hrow pid hres => hall row (List.mem_cons_of_mem _ hrow) pid hres)

/-- Re-submitting the same foundry signup screenshot is a pure skip: no state
change and zero created signups. -/
theorem saveFoundrySignupOcr_idem (db : DB) (allianceId : Nat) (legionNumber : Int)
    (eventDate : Int) (data : FoundrySignupData) (r1 r2 : Int) :
    saveFoundrySignupOcr (saveFoundrySignupOcr db allianceId legionNumber eventDate data
        r1).1 allianceId legionNumber eventDate data r2 =
      ((saveFoundrySignupOcr db allianceId legionNumber eventDate data r1).1,
       { eventId := (saveFoundrySignupOcr db allianceId legionNumber eventDate data
           r1).2.eventId, signups := 0 }) := by
  unfold saveFoundrySignupOcr
  have hstable := findOrCreateFoundryEvent_stable db
    (data.players.foldl
      (foundrySignupStep allianceId
        (findOrCreateFoundryEvent db allianceId legionNumber eventDate
          data.totalTroopPower data.maxParticipants data.actualParticipants).2.id r1)
      ((findOrCreateFoundryEvent db allianceId legionNumber eventDate
          data.totalTroopPower data.maxParticipants data.actualParticipants).1, 0)).1
    allianceId legionNumber eventDate
    data.totalTroopPower data.maxParticipants data.actualParticipants
    (by rw [foundrySignupFold_events])
  rw [hstable]
  dsimp only
  rw [foundrySignupFold_idem]
  intro row hrow pid hres
  have hplayers : (data.players.foldl
      (foundrySignupStep allianceId
        (findOrCreateFoundryEvent db allianceId legionNumber eventDate
          data.totalTroopPower data.maxParticipants data.actualParticipants).2.id r1)
      ((findOrCreateFoundryEvent db allianceId legionNumber eventDate
          data.totalTroopPower data.maxParticipants data.actualParticipants).1, 0)).1.players
      = db.players := by
    rw [foundrySignupFold_players]
    exact findOrCreateFoundryEvent_players _ _ _ _ _ _ _
  rw [hplayers] at hres
  apply foundrySignupFold_establishes _ _ _ _ _ row pid hrow
  rw [findOrCreateFoundryEvent_players]
  exact hres

/-! ## Idempotence machinery: foundry results -/

theorem find_append_new {α : Type} (p : α → Bool) (l : List α) (v : α)
    (h : l.find? p = none) (hv : p v = true) : (l ++ [v]).find? p = some v := by
  induction l with
  | nil => simp [List.find?, hv]
  | cons x xs ih =>
    have hx : ¬ p x = true := by
      intro hpx
      have : (x :: xs).find? p = some x := by simp [List.find?_cons, hpx]
      rw [h] at this
      cases this
    have hxs : xs.find? p = none := by
      rw [List.find?_eq_none] at h ⊢
      intro y hy
      exact h y (List.mem_cons_of_mem _ hy)
    simp only [List.cons_append, List.find?_cons]
    simp only [Bool.not_eq_true] at hx
    simp [hx, ih hxs]

/-- Outcome of the player-resolution prefix of one `foundryResultStep`. -/
def foundryResultResolve (players : List Player) (allianceId : Nat)
    (row : FoundryResultRow) : Option Nat :=
  match row.name with
  | none => none
  | some name =>
    if name == "" then none
    else (findPlayerWithFuzzyFallback players allianceId (stripTag name)).map (·.id)

/-- A result row for `(event, player)` already exists. -/
def foundryResultKeyPresent (db : DB) (eventId pid : Nat) : Bool :=
  db.foundryResults.any (fun r => r.foundryEventId == eventId && r.playerId == pid)

theorem foundryResultStep_eq (allianceId eventId : Nat) (recordedAt : Int)
    (acc : DB × Nat) (row : FoundryResultRow) :
    foundryResultStep allianceId eventId recordedAt acc row =
      match foundryResultResolve acc.1.players allianceId row with
      | none => acc
      | some pid =>
        if foundryResultKeyPresent acc.1 eventId pid then acc
        else ({ acc.1 with foundryResults := acc.1.foundryResults ++
            [{ foundryEventId := eventId, playerId := pid, score := row.score.getD 0,
               rank := row.rank, recordedAt := recordedAt }] }, acc.2 + 1) := by
  unfold foundryResultStep foundryResultResolve foundryResultKeyPresent addFoundryResult
  cases hx : row.name with
  | none => rfl
  | some name =>
    dsimp only
    by_cases hempty : (name == "") = true
    · simp only [hempty, if_pos]
    · simp only [hempty, if_neg, Bool.false_eq_true, not_false_iff]
      cases hf : findPlayerWithFuzzyFallback acc.1.players allianceId (stripTag name) with
      | none => rfl
      | some player =>
        dsimp only [Option.map_some']
        by_cases hkey : (acc.1.foundryResults.any
            (fun r => r.foundryEventId == eventId && r.playerId == player.id)) = true
        · simp only [hkey, if_pos]
          rfl
        · simp only [hkey, if_neg, Bool.false_eq_true, not_false_iff]
          rfl

theorem foundryResultStep_players (allianceId eventId : Nat) (recordedAt : Int)
    (acc : DB × Nat) (row : FoundryResultRow) :
    (foundryResultStep allianceId eventId recordedAt acc row).1.players = acc.1.players := by
  rw [foundryResultStep_eq]
  cases foundryResultResolve acc.1.players allianceId row with
  | none => rfl
  | some pid =>
    dsimp only
    split
    · rfl
    · rfl

theorem foundryResultStep_events (allianceId eventId : Nat) (recordedAt : Int)
    (acc : DB × Nat) (row : FoundryResultRow) :
    (foundryResultStep allianceId eventId recordedAt acc row).1.foundryEvents =
      acc.1.foundryEvents := by
  rw [foundryResultStep_eq]
  cases foundryResultResolve acc.1.players allianceId row with
  | none => rfl
  | some pid =>
    dsimp only
    split
    · rfl
    · rfl

theorem foundryResultStep_skip_unresolved (allianceId eventId : Nat) (recordedAt : Int)
    (acc : DB × Nat) (row : FoundryResultRow)
    (h : foundryResultResolve acc.1.players allianceId row = none) :
    foundryResultStep allianceId eventId recordedAt acc row = acc := by
  rw [foundryResultStep_eq, h]

theorem foundryResultStep_skip_present (allianceId eventId : Nat) (recordedAt : Int)
    (acc : DB × Nat) (row : FoundryResultRow) (pid : Nat)
    (h : foundryResultResolve acc.1.players allianceId row = some pid)
    (hkey : foundryResultKeyPresent acc.1 eventId pid = true) :
    foundryResultStep allianceId eventId recordedAt acc row = acc := by
  rw [foundryResultStep_eq, h]
  simp [hkey]

theorem foundryResultStep_establishes (allianceId eventId : Nat) (recordedAt : Int)
    (acc : DB × Nat) (row : FoundryResultRow) (pid : Nat)
    (h : foundryResultResolve acc.1.players allianceId row = some pid) :
    foundryResultKeyPresent (foundryResultStep allianceId eventId recordedAt acc row).1
      eventId pid = true := by
  rw [foundryResultStep_eq, h]
  by_cases hkey : foundryResultKeyPresent acc.1 eventId pid = true
  · simp only [hkey, if_pos]
  · simp only [Bool.not_eq_true] at hkey
    simp only [hkey, Bool.false_eq_true, if_neg, not_false_iff]
    unfold foundryResultKeyPresent
    simp [List.any_append]

theorem foundryResultStep_mono (allianceId eventId : Nat) (recordedAt : Int)
    (acc : DB × Nat) (row : FoundryResultRow) (pid : Nat)
    (h : foundryResultKeyPresent acc.1 eventId pid = true) :
    foundryResultKeyPresent (foundryResultStep allianceId eventId recordedAt acc row).1
      eventId pid = true := by
  rw [foundryResultStep_eq]
  cases foundryResultResolve acc.1.players allianceId row with
  | none => exact h
  | some pid2 =>
    dsimp only
    split
    · exact h
    · unfold foundryResultKeyPresent at h ⊢
      simp only [List.any_append, Bool.or_eq_true]
      exact Or.inl h

theorem foundryResultFold_players (allianceId eventId : Nat) (recordedAt : Int)
    (rows : List FoundryResultRow) (acc : DB × Nat) :
    (rows.foldl (foundryResultStep allianceId eventId recordedAt) acc).1.players =
      acc.1.players := by
  induction rows generalizing acc with
  | nil => rfl
  | cons row rest ih => rw [List.foldl_cons, ih, foundryResultStep_players]

theorem foundryResultFold_events (allianceId eventId : Nat) (recordedAt : Int)
    (rows : List FoundryResultRow) (acc : DB × Nat) :
    (rows.foldl (foundryResultStep allianceId eventId recordedAt) acc).1.foundryEvents =
      acc.1.foundryEvents := by
  induction rows generalizing acc with
  | nil => rfl
  | cons row rest ih => rw [List.foldl_cons, ih, foundryResultStep_events]

theorem foundryResultFold_mono (allianceId eventId : Nat) (recordedAt : Int)
    (rows : List FoundryResultRow) (acc : DB × Nat) (pid : Nat)
    (h : foundryResultKeyPresent acc.1 eventId pid = true) :
    foundryResultKeyPresent
      (rows.foldl (foundryResultStep allianceId eventId recordedAt) acc).1 eventId pid
      = true := by
  induction rows generalizing acc with
  | nil => exact h
  | cons row rest ih =>
    rw [List.foldl_cons]
    exact ih _ (foundryResultStep_mono _ _ _ _ _ _ h)

theorem foundryResultFold_establishes (allianceId eventId : Nat) (recordedAt : Int)
    (rows : List FoundryResultRow) (acc : DB × Nat) (row : FoundryResultRow) (pid : Nat)
    (hrow : row ∈ rows)
    (h : foundryResultResolve acc.1.players allianceId row = some pid) :
    foundryResultKeyPresent
      (rows.foldl (foundryResultStep allianceId eventId recordedAt) acc).1 eventId pid
      = true := by
  induction rows generalizing acc with
  | nil => cases hrow
  | cons hd rest ih =>
    rw [List.foldl_cons]
    rcases List.mem_cons.mp hrow with heq | hmem
    · subst heq
      exact foundryResultFold_mono _ _ _ _ _ _
        (foundryResultStep_establishes _ _ _ _ _ _ h)
    · exact ih _ hmem (by rw [foundryResultStep_players]; exact h)

theorem foundryResultFold_idem (allianceId eventId : Nat) (recordedAt : Int)
    (rows : List FoundryResultRow) (acc : DB × Nat)
    (hall : ∀ row ∈ rows, ∀ pid,
      foundryResultResolve acc.1.players allianceId row = some pid →
      foundryResultKeyPresent acc.1 eventId pid = true) :
    rows.foldl (foundryResultStep allianceId eventId recordedAt) acc = acc := by
  induction rows with
  | nil => rfl
  | cons hd rest ih =>
    rw [List.foldl_cons]
    have hstep : foundryResultStep allianceId eventId recordedAt acc hd = acc := by
      cases hres : foundryResultResolve acc.1.players allianceId hd with
      | none => exact foundryResultStep_skip_unresolved _ _ _ _ _ hres
      | some pid =>
        exact foundryResultStep_skip_present _ _ _ _ _ pid hres
          (hall hd (List.mem_cons_self _ _) pid hres)
    rw [hstep]
    exact ih (fun row hrow pid hres => hall row (List.mem_cons_of_mem _ hrow) pid hres)

/-- Re-submitting the same foundry result screenshot is a pure skip: no state
change and zero created results. -/
theorem saveFoundryResultOcr_idem (db : DB) (allianceId : Nat) (legionNumber : Int)
    (eventDate : Int) (rows : List FoundryResultRow) (r1 r2 : Int) :
    saveFoundryResultOcr (saveFoundryResultOcr db allianceId legionNumber eventDate rows
        r1).1 allianceId legionNumber eventDate rows r2 =
      ((saveFoundryResultOcr db allianceId legionNumber eventDate rows r1).1,
       { eventId := (saveFoundryResultOcr db allianceId legionNumber eventDate rows
           r1).2.eventId, results := 0 }) := by
  unfold saveFoundryResultOcr
  cases hfind : db.foundryEvents.find? (foundryKeyMatch allianceId legionNumber eventDate)
      with
  | some e =>
    dsimp only
    rw [foundryResultFold_events]
    dsimp only
    rw [hfind]
    dsimp only
    rw [foundryResultFold_idem]
    intro row hrow pid hres
    rw [foundryResultFold_players] at hres
    exact foundryResultFold_establishes _ _ _ _ _ row pid hrow hres
  | none =>
    dsimp only
    have hidx : findIdxVal (foundryKeyMatch allianceId legionNumber eventDate)
        db.foundryEvents = none := by
      rw [findIdxVal_none]
      intro x hx
      have := List.find?_eq_none.mp hfind x hx
      simpa using this
    unfold findOrCreateFoundryEvent
    rw [hidx]
    dsimp only
    have hkey : foundryKeyMatch allianceId legionNumber eventDate
        { id := db.nextFoundryEventId, allianceId := allianceId,
          legionNumber := legionNumber, eventDate := eventDate,
          totalTroopPower := none, maxParticipants := none, actualParticipants := none }
        = true := by
      simp [foundryKeyMatch]
    rw [foundryResultFold_events]
    dsimp only
    rw [find_append_new _ _ _ hfind hkey]
    dsimp only
    rw [foundryResultFold_idem]
    intro row hrow pid hres
    rw [foundryResultFold_players] at hres
    dsimp only at hres
    exact foundryResultFold_establishes _ _ _ _ _ row pid hrow hres

/-! ## Claim C1 — idempotent re-upload for the hard-skip kinds -/

/-- Claim C1, counterexample.  Re-submitting the same alliance-members rows
with the same `captured_at` does not complete without error:
`save_alliance_members_ocr` appends the power-history row unconditionally,
so the second commit violates the `uq_power_capture` unique constraint and
raises `IntegrityError` (the transaction rolls back, leaving the one
existing row). -/
theorem claim_C1_counterexample :
    saveAllianceMembersOcr {} 1 [{ name := some "Ayla", power := some 5000000 }] 0 =
      .ok ({ players := [{ id := 1, allianceId := 1, name := "Ayla", currentPower := some 5000000 }],
             powerHistory := [{ playerId := 1, power := 5000000, capturedAt := 0 }],
             nextPlayerId := 2 },
           { players := 1, powerRecords := 1, furnaceRecords := 0 }) ∧
    saveAllianceMembersOcr
      { players := [{ id := 1, allianceId := 1, name := "Ayla", currentPower := some 5000000 }],
        powerHistory := [{ playerId := 1, power := 5000000, capturedAt := 0 }],
        nextPlayerId := 2 }
      1 [{ name := some "Ayla", power := some 5000000 }] 0 = .error "IntegrityError" := by
  exact ⟨by decide, by decide⟩

/-- Claim C1, amended: for foundry signup, foundry result and contribution
snapshot, submitting the same rows twice with the same timestamps is a pure
skip — the second submission changes nothing and reports zero created rows,
leaving exactly one row per uniqueness key.  For power/furnace history
(`save_alliance_members_ocr`) the second identical submission does not
complete without error: the unconditional history insert violates the
`(player_id, captured_at)` unique constraint at commit, and only the
rollback keeps the table at one row per key. -/
theorem claim_C1_idempotence :
    (∀ (db : DB) (allianceId : Nat) (legionNumber eventDate : Int)
        (data : FoundrySignupData) (r1 r2 : Int),
      saveFoundrySignupOcr (saveFoundrySignupOcr db allianceId legionNumber eventDate
          data r1).1 allianceId legionNumber eventDate data r2 =
        ((saveFoundrySignupOcr db allianceId legionNumber eventDate data r1).1,
         { eventId := (saveFoundrySignupOcr db allianceId legionNumber eventDate data
             r1).2.eventId, signups := 0 })) ∧
    (∀ (db : DB) (allianceId : Nat) (legionNumber eventDate : Int)
        (rows : List FoundryResultRow) (r1 r2 : Int),
      saveFoundryResultOcr (saveFoundryResultOcr db allianceId legionNumber eventDate
          rows r1).1 allianceId legionNumber eventDate rows r2 =
        ((saveFoundryResultOcr db allianceId legionNumber eventDate rows r1).1,
         { eventId := (saveFoundryResultOcr db allianceId legionNumber eventDate rows
             r1).2.eventId, results := 0 })) ∧
    (∀ (db : DB) (allianceId : Nat) (weekStartDate snapshotDate : Int)
        (rows : List ContribRow) (r1 r2 : Int),
      saveContributionSnapshotOcr (saveContributionSnapshotOcr db allianceId
          weekStartDate snapshotDate rows r1).1 allianceId weekStartDate snapshotDate
          rows r2 =
        ((saveContributionSnapshotOcr db allianceId weekStartDate snapshotDate rows
            r1).1, { snapshots := 0 })) ∧
    saveAllianceMembersOcr
      { players := [{ id := 1, allianceId := 1, name := "Ayla", currentPower := some 5000000 }],
        powerHistory := [{ playerId := 1, power := 5000000, capturedAt := 0 }],
        nextPlayerId := 2 }
      1 [{ name := some "Ayla", power := some 5000000 }] 0 = .error "IntegrityError" := by
  refine ⟨?_, ?_, ?_, by decide⟩
  · exact saveFoundrySignupOcr_idem
  · exact saveFoundryResultOcr_idem
  · intro db allianceId weekStartDate snapshotDate rows r1 r2
    exact saveContribution_second_skip db allianceId weekStartDate snapshotDate
      weekStartDate snapshotDate rows r1 r2 rfl rfl

end Observatory
